import Mathlib

/-!
Verification model of the virtual-machine repository (Go sources:
`main.go` with the `Memory` type, `loader.go`, and the processor /
command files).  Machine integers are modelled as `Nat` / `Int` with
explicit wrapping:

* `int32` values are `Int`s; Go's wrapping arithmetic is `wrap32`,
  Go's `uint32(x)` conversion is `u32`, Go's `uint16(x)` is `u16`.
* `uint8` / `uint16` struct fields are `Nat`s; theorems carry the
  range bounds where they matter.
* Go's `float32` field `Data.F` is carried as an exact `Rat` value.
  No theorem below depends on float arithmetic beyond the `== 0`
  test: `Memory.ReadWord` never populates `F` (it assigns only the
  integer field, exactly as the Go code does), so every float value
  reaching a command is the zero value `0`.
* A Go runtime panic (out-of-range slice, integer division by zero
  in unguarded code) is modelled by `Option`/`.panic` outcomes; the
  Go `error` results that are actually returned are modelled by an
  explicit error type `VMErr`.
-/

namespace VM

/-- `Data` of `part_002`: the "union-like" pair of a 32-bit integer and a
32-bit float.  In Go these are two separate fields (not a real union), which
is load-bearing for the semantics below. -/
structure Data where
  I : Int
  F : Rat
  deriving DecidableEq

/-- `CommandData` of `part_002`: opcode (uint8), BB (uint8, 2 significant
bits), Address1 and Address2 (uint16). -/
structure CommandData where
  Opcode : Nat
  BB : Nat
  Address1 : Nat
  Address2 : Nat
  deriving DecidableEq

/-- `Word` of `part_002`: a pair of the data view and the command view. -/
structure Word where
  D : Data
  Cmd : CommandData
  deriving DecidableEq

/-- The zero `Word` (Go zero value). -/
def Word.zero : Word := ⟨⟨0, 0⟩, ⟨0, 0, 0, 0⟩⟩

/-- Two's-complement wrap of an `Int` into the `int32` range. -/
def wrap32 (x : Int) : Int := (x + 2 ^ 31) % 2 ^ 32 - 2 ^ 31

/-- Go `uint32(x)` for an `int32` value `x`: the nonnegative residue. -/
def u32 (x : Int) : Nat := (x % 2 ^ 32).toNat

/-- Go `uint16(x)` for an integer value `x`: the low 16 bits. -/
def u16 (x : Int) : Nat := (x % 2 ^ 16).toNat

/-- Reinterpret a `uint32` bit pattern as an `int32` value
(`*(*int32)(unsafe.Pointer(&rawValue))` in `ReadWord`). -/
def i32ofU32 (n : Nat) : Int := if n < 2 ^ 31 then (n : Int) else (n : Int) - 2 ^ 32

/-- Go `int32` division: truncation toward zero, with the two's-complement
wrap on `MinInt32 / -1` (the Go-defined result). -/
def goDiv32 (a b : Int) : Int := wrap32 (Int.tdiv a b)

/-- `Memory` of `main.go`: a byte array of `size` bytes.  The byte slice is
modelled as a total function; only indices in `[0, size)` are meaningful.
The diagnostic counters (`accessCount`, `errorCount`) and `initialized`
flag are not architecturally visible and are omitted. -/
structure Memory where
  data : Int → Nat
  size : Int

/-- `NewMemory`: zero-initialised memory of the given size. -/
def NewMemory (size : Int) : Memory := ⟨fun _ => 0, size⟩

/-- `Memory.IsValidAddress`: `address >= 0 && address < m.size`. -/
def Memory.IsValidAddress (m : Memory) (address : Int) : Prop :=
  0 ≤ address ∧ address < m.size

instance (m : Memory) (a : Int) : Decidable (m.IsValidAddress a) := by
  unfold Memory.IsValidAddress; infer_instance

/-- The 32-bit raw value `WriteWord` serialises for a word: the command
packing `opcode<<24 | BB<<22 | Address1<<10 | Address2` when the opcode is
nonzero, otherwise the bits of the integer view `D.I` (the float view is
never serialised — the Go code takes the bits of the `I` field). -/
def Word.rawValue (w : Word) : Nat :=
  if w.Cmd.Opcode > 0 then
    w.Cmd.Opcode <<< 24 ||| w.Cmd.BB <<< 22 ||| w.Cmd.Address1 <<< 10 ||| w.Cmd.Address2
  else u32 w.D.I

/-- `Memory.WriteWord`: serialise the word and store its four bytes
little-endian at `address .. address+3`.  The Go function performs **no
bounds check** (despite its doc comment) and its declared `error` result is
always `nil`; the out-of-range slice expression
`m.data[address:address+4]` panics, which is modelled by `none`. -/
def Memory.WriteWord (m : Memory) (address : Int) (w : Word) : Option Memory :=
  let raw := w.rawValue
  if 0 ≤ address ∧ address + 4 ≤ m.size then
    some { m with data := fun i =>
      (if i = address then raw % 256
       else if i = address + 1 then raw / 2 ^ 8 % 256
       else if i = address + 2 then raw / 2 ^ 16 % 256
       else if i = address + 3 then raw / 2 ^ 24 % 256
       else m.data i) }
  else none

/-- `Memory.ReadWord`: read four little-endian bytes; if the high byte is
nonzero decode the command view (leaving the data view at the Go zero
value), otherwise populate the integer view (leaving the command view
zero — and never touching the float field `F`).  Like `WriteWord`, the Go
function has no bounds check and never returns a non-nil error; the
out-of-range slice panic is modelled by `none`. -/
def Memory.ReadWord (m : Memory) (address : Int) : Option Word :=
  if 0 ≤ address ∧ address + 4 ≤ m.size then
    let b0 := m.data address
    let b1 := m.data (address + 1)
    let b2 := m.data (address + 2)
    let b3 := m.data (address + 3)
    let rawValue := b0 + b1 * 2 ^ 8 + b2 * 2 ^ 16 + b3 * 2 ^ 24
    if b3 > 0 then
      some ⟨⟨0, 0⟩, ⟨rawValue >>> 24, rawValue >>> 22 &&& 0x03,
                    rawValue >>> 10 &&& 0xFFF, rawValue &&& 0x3FF⟩⟩
    else
      some ⟨⟨i32ofU32 rawValue, 0⟩, ⟨0, 0, 0, 0⟩⟩
  else none

/-- Errors returned through Go `error` values, one constructor per
`fmt.Errorf` site that the model can reach. -/
inductive VMErr where
  | invalidIP (ip : Nat)
  | invalidOpcode (ip opcode : Nat)
  | invalidRegister (index : Nat)
  | divByZero
  | invalidIntInput
  | invalidFloatInput
  | execFail (ip : Nat) (e : VMErr)
  deriving DecidableEq

/-- `PSW` of `part_001`: instruction pointer (uint16) and the four
condition flags. -/
structure PSW where
  IP : Nat
  SignFlag : Bool
  CarryFlag : Bool
  OverflowFlag : Bool
  ZeroFlag : Bool
  deriving DecidableEq

/-- `NUM_REGISTERS` of `part_001`. -/
def NUM_REGISTERS : Nat := 2

/-- `Processor` of `part_001`: memory, PSW, the two-element register file
(`registers[0]`, `registers[1]` as separate fields), and the `error` /
`stop` flags.  Log files, loggers and the command map are construction
details without architectural state and are omitted. -/
structure Processor where
  memory : Memory
  psw : PSW
  reg0 : Int
  reg1 : Int
  error : Bool
  stop : Bool

/-- `Processor.GetRegister`: index `>= NUM_REGISTERS` is an error. -/
def Processor.GetRegister (p : Processor) (index : Nat) : Except VMErr Int :=
  if index ≥ NUM_REGISTERS then .error (.invalidRegister index)
  else if index = 0 then .ok p.reg0 else .ok p.reg1

/-- `Processor.SetRegister`: index `>= NUM_REGISTERS` is an error, the
state is unchanged in that case. -/
def Processor.SetRegister (p : Processor) (index : Nat) (value : Int) :
    Except VMErr Processor :=
  if index ≥ NUM_REGISTERS then .error (.invalidRegister index)
  else if index = 0 then .ok { p with reg0 := value } else .ok { p with reg1 := value }

/-- `Processor.UpdateArithmeticFlags`. -/
def Processor.UpdateArithmeticFlags (p : Processor) (result : Int)
    (hasCarry hasOverflow : Bool) : Processor :=
  { p with psw := { p.psw with
      SignFlag := result < 0
      ZeroFlag := result = 0
      CarryFlag := hasCarry
      OverflowFlag := hasOverflow } }

/-- `Processor.UpdateFloatFlags`. -/
def Processor.UpdateFloatFlags (p : Processor) (result : Rat) : Processor :=
  { p with psw := { p.psw with
      SignFlag := result < 0
      ZeroFlag := result = 0
      CarryFlag := false
      OverflowFlag := false } }

/-- `Processor.GetFlags`: the packed 16-bit flag word
(bit 15 = S, bit 11 = V, bit 10 = Z, bit 0 = C). -/
def Processor.GetFlags (p : Processor) : Nat :=
  let flags : Nat := 0
  let flags := if p.psw.SignFlag then flags ||| 0x8000 else flags
  let flags := if p.psw.OverflowFlag then flags ||| 0x0800 else flags
  let flags := if p.psw.ZeroFlag then flags ||| 0x0400 else flags
  let flags := if p.psw.CarryFlag then flags ||| 0x0001 else flags
  flags

/-- Result of running a command or one step of the engine:
`ok` / a returned Go `error` (with the state as mutated so far) /
a Go runtime panic. -/
inductive ExecResult where
  | ok (p : Processor)
  | fail (p : Processor) (e : VMErr)
  | panic

/-- Stdin model for the two input commands: the next token's parse
results (`none` = the token does not parse). -/
structure Console where
  intInput : Option Int
  floatInput : Option Rat

/-- `calculateAddress` of `part_000`: BB bit 1 selects register mode, bit 0
the displacement; plain displacement mode (`BB = 01`) always uses register
0 regardless of `regIndex`. -/
def calculateAddress (p : Processor) (bb : Nat) (address : Nat) (regIndex : Nat) :
    Except VMErr Nat :=
  if bb &&& 0x02 ≠ 0 then
    match p.GetRegister regIndex with
    | .error e => .error e
    | .ok regValue =>
      if bb &&& 0x01 ≠ 0 then .ok (u16 (wrap32 ((address : Int) + regValue)))
      else .ok (u16 regValue)
  else if bb &&& 0x01 ≠ 0 then
    match p.GetRegister 0 with
    | .error e => .error e
    | .ok regValue => .ok (u16 (wrap32 ((address : Int) + regValue)))
  else .ok address

/-- `JumpZero.Execute`: jump when the packed flag word is zero. -/
def JumpZero.Execute (j : CommandData) (p : Processor) : ExecResult :=
  if p.GetFlags = 0 then
    match calculateAddress p j.BB j.Address1 0 with
    | .error e => .fail p e
    | .ok effectiveAddr => .ok { p with psw.IP := effectiveAddr }
  else .ok p

/-- `JumpGreater.Execute`: the Go test `p.GetFlags() > 0` is an **unsigned**
(uint16) comparison, i.e. "flag word nonzero". -/
def JumpGreater.Execute (j : CommandData) (p : Processor) : ExecResult :=
  if p.GetFlags > 0 then
    match calculateAddress p j.BB j.Address1 0 with
    | .error e => .fail p e
    | .ok effectiveAddr => .ok { p with psw.IP := effectiveAddr }
  else .ok p

/-- `JumpLess.Execute`: the Go test `p.GetFlags() < 0` compares a uint16
against 0 and is therefore never true; the translation keeps the literal
comparison on `Nat`. -/
def JumpLess.Execute (j : CommandData) (p : Processor) : ExecResult :=
  if p.GetFlags < 0 then
    match calculateAddress p j.BB j.Address1 0 with
    | .error e => .fail p e
    | .ok effectiveAddr => .ok { p with psw.IP := effectiveAddr }
  else .ok p

/-- `Halt.Execute`. -/
def Halt.Execute (_ : CommandData) (p : Processor) : ExecResult :=
  .ok { p with stop := true }

/-- `AddInt.Execute`.  Note the Go order of operations: `word1.D.I` is
overwritten with the result *before* the carry/overflow expressions read
`word1.D.I`, so those expressions see the result, not the first operand. -/
def AddInt.Execute (a : CommandData) (p : Processor) : ExecResult :=
  let regIndex := a.Address1 &&& 0x07
  match calculateAddress p a.BB a.Address1 regIndex with
  | .error e => .fail p e
  | .ok addr1 =>
    match calculateAddress p a.BB a.Address2 regIndex with
    | .error e => .fail p e
    | .ok addr2 =>
      match p.memory.ReadWord (addr1 : Int) with
      | none => .panic
      | some word1 =>
        match p.memory.ReadWord (addr2 : Int) with
        | none => .panic
        | some word2 =>
          let result := wrap32 (word1.D.I + word2.D.I)
          let word1 := { word1 with D.I := result }
          match p.memory.WriteWord (addr1 : Int) word1 with
          | none => .panic
          | some m =>
            let hasOverflow := (word1.D.I > 0 ∧ word2.D.I > 0 ∧ result < 0) ∨
              (word1.D.I < 0 ∧ word2.D.I < 0 ∧ result > 0)
            let hasCarry := (u32 word1.D.I + u32 word2.D.I) % 2 ^ 32 > 0x7FFFFFFF
            .ok (Processor.UpdateArithmeticFlags { p with memory := m }
              result (decide hasCarry) (decide hasOverflow))

/-- `SubInt.Execute`.  Same aliasing as `AddInt.Execute`: the borrow test
`uint32(word1.D.I) < uint32(word2.D.I)` reads the already-overwritten
`word1.D.I`, i.e. the result. -/
def SubInt.Execute (s : CommandData) (p : Processor) : ExecResult :=
  let regIndex := s.Address1 &&& 0x07
  match calculateAddress p s.BB s.Address1 regIndex with
  | .error e => .fail p e
  | .ok addr1 =>
    match calculateAddress p s.BB s.Address2 regIndex with
    | .error e => .fail p e
    | .ok addr2 =>
      match p.memory.ReadWord (addr1 : Int) with
      | none => .panic
      | some word1 =>
        match p.memory.ReadWord (addr2 : Int) with
        | none => .panic
        | some word2 =>
          let result := wrap32 (word1.D.I - word2.D.I)
          let word1 := { word1 with D.I := result }
          match p.memory.WriteWord (addr1 : Int) word1 with
          | none => .panic
          | some m =>
            let hasOverflow := (word1.D.I > 0 ∧ word2.D.I < 0 ∧ result < 0) ∨
              (word1.D.I < 0 ∧ word2.D.I > 0 ∧ result > 0)
            let hasCarry := u32 word1.D.I < u32 word2.D.I
            .ok (Processor.UpdateArithmeticFlags { p with memory := m }
              result (decide hasCarry) (decide hasOverflow))

/-- `MulInt.Execute`.  The overflow check divides by `word2.D.I` with no
zero guard; a zero second operand is a Go runtime panic (which happens
after the result has been written back). -/
def MulInt.Execute (m : CommandData) (p : Processor) : ExecResult :=
  let regIndex := m.Address1 &&& 0x07
  match calculateAddress p m.BB m.Address1 regIndex with
  | .error e => .fail p e
  | .ok addr1 =>
    match calculateAddress p m.BB m.Address2 regIndex with
    | .error e => .fail p e
    | .ok addr2 =>
      match p.memory.ReadWord (addr1 : Int) with
      | none => .panic
      | some word1 =>
        match p.memory.ReadWord (addr2 : Int) with
        | none => .panic
        | some word2 =>
          let result := wrap32 (word1.D.I * word2.D.I)
          let word1 := { word1 with D.I := result }
          match p.memory.WriteWord (addr1 : Int) word1 with
          | none => .panic
          | some mem =>
            if word2.D.I = 0 then .panic
            else
              let hasOverflow := goDiv32 result word2.D.I ≠ word1.D.I
              .ok (Processor.UpdateArithmeticFlags { p with memory := mem }
                result false (decide hasOverflow))

/-- `DivInt.Execute`: zero divisor sets the processor error flag and
returns the division-by-zero error without touching memory. -/
def DivInt.Execute (d : CommandData) (p : Processor) : ExecResult :=
  let regIndex := d.Address1 &&& 0x07
  match calculateAddress p d.BB d.Address1 regIndex with
  | .error e => .fail p e
  | .ok addr1 =>
    match calculateAddress p d.BB d.Address2 regIndex with
    | .error e => .fail p e
    | .ok addr2 =>
      match p.memory.ReadWord (addr1 : Int) with
      | none => .panic
      | some word1 =>
        match p.memory.ReadWord (addr2 : Int) with
        | none => .panic
        | some word2 =>
          if word2.D.I = 0 then .fail { p with error := true } .divByZero
          else
            let result := goDiv32 word1.D.I word2.D.I
            let word1 := { word1 with D.I := result }
            match p.memory.WriteWord (addr1 : Int) word1 with
            | none => .panic
            | some m =>
              .ok (Processor.UpdateArithmeticFlags { p with memory := m }
                result false false)

/-- `AddFloat.Execute`.  Float values are carried as exact rationals; every
word produced by `ReadWord` has `F = 0`, so the arithmetic below only ever
runs on zeros in reachable states. -/
def AddFloat.Execute (a : CommandData) (p : Processor) : ExecResult :=
  let regIndex := a.Address1 &&& 0x07
  match calculateAddress p a.BB a.Address1 regIndex with
  | .error e => .fail p e
  | .ok addr1 =>
    match calculateAddress p a.BB a.Address2 regIndex with
    | .error e => .fail p e
    | .ok addr2 =>
      match p.memory.ReadWord (addr1 : Int) with
      | none => .panic
      | some word1 =>
        match p.memory.ReadWord (addr2 : Int) with
        | none => .panic
        | some word2 =>
          let result := word1.D.F + word2.D.F
          let word1 := { word1 with D.F := result }
          match p.memory.WriteWord (addr1 : Int) word1 with
          | none => .panic
          | some m => .ok (Processor.UpdateFloatFlags { p with memory := m } result)

/-- `SubFloat.Execute`. -/
def SubFloat.Execute (s : CommandData) (p : Processor) : ExecResult :=
  let regIndex := s.Address1 &&& 0x07
  match calculateAddress p s.BB s.Address1 regIndex with
  | .error e => .fail p e
  | .ok addr1 =>
    match calculateAddress p s.BB s.Address2 regIndex with
    | .error e => .fail p e
    | .ok addr2 =>
      match p.memory.ReadWord (addr1 : Int) with
      | none => .panic
      | some word1 =>
        match p.memory.ReadWord (addr2 : Int) with
        | none => .panic
        | some word2 =>
          let result := word1.D.F - word2.D.F
          let word1 := { word1 with D.F := result }
          match p.memory.WriteWord (addr1 : Int) word1 with
          | none => .panic
          | some m => .ok (Processor.UpdateFloatFlags { p with memory := m } result)

/-- `MulFloat.Execute`. -/
def MulFloat.Execute (mc : CommandData) (p : Processor) : ExecResult :=
  let regIndex := mc.Address1 &&& 0x07
  match calculateAddress p mc.BB mc.Address1 regIndex with
  | .error e => .fail p e
  | .ok addr1 =>
    match calculateAddress p mc.BB mc.Address2 regIndex with
    | .error e => .fail p e
    | .ok addr2 =>
      match p.memory.ReadWord (addr1 : Int) with
      | none => .panic
      | some word1 =>
        match p.memory.ReadWord (addr2 : Int) with
        | none => .panic
        | some word2 =>
          let result := word1.D.F * word2.D.F
          let word1 := { word1 with D.F := result }
          match p.memory.WriteWord (addr1 : Int) word1 with
          | none => .panic
          | some m => .ok (Processor.UpdateFloatFlags { p with memory := m } result)

/-- `DivFloat.Execute`: zero float divisor sets the error flag and returns
the division-by-zero error without touching memory. -/
def DivFloat.Execute (d : CommandData) (p : Processor) : ExecResult :=
  let regIndex := d.Address1 &&& 0x07
  match calculateAddress p d.BB d.Address1 regIndex with
  | .error e => .fail p e
  | .ok addr1 =>
    match calculateAddress p d.BB d.Address2 regIndex with
    | .error e => .fail p e
    | .ok addr2 =>
      match p.memory.ReadWord (addr1 : Int) with
      | none => .panic
      | some word1 =>
        match p.memory.ReadWord (addr2 : Int) with
        | none => .panic
        | some word2 =>
          if word2.D.F = 0 then .fail { p with error := true } .divByZero
          else
            let result := word1.D.F / word2.D.F
            let word1 := { word1 with D.F := result }
            match p.memory.WriteWord (addr1 : Int) word1 with
            | none => .panic
            | some m => .ok (Processor.UpdateFloatFlags { p with memory := m } result)

/-- `InputInt.Execute`: stdin is consulted first; a malformed token is the
input error. -/
def InputInt.Execute (console : Console) (i : CommandData) (p : Processor) : ExecResult :=
  match console.intInput with
  | none => .fail p .invalidIntInput
  | some value =>
    let regIndex := i.Address1 &&& 0x07
    match calculateAddress p i.BB i.Address1 regIndex with
    | .error e => .fail p e
    | .ok addr1 =>
      match p.memory.WriteWord (addr1 : Int) ⟨⟨value, 0⟩, ⟨0, 0, 0, 0⟩⟩ with
      | none => .panic
      | some m => .ok { p with memory := m }

/-- `OutputInt.Execute`: the printed output is not part of the model; the
state is unchanged on success. -/
def OutputInt.Execute (o : CommandData) (p : Processor) : ExecResult :=
  let regIndex := o.Address1 &&& 0x07
  match calculateAddress p o.BB o.Address1 regIndex with
  | .error e => .fail p e
  | .ok addr1 =>
    match p.memory.ReadWord (addr1 : Int) with
    | none => .panic
    | some _ => .ok p

/-- `InputFloat.Execute`.  The word written carries the parsed float in
`F` and the Go zero value `0` in `I` — and `WriteWord` serialises only the
`I` bits, so the float value never reaches memory. -/
def InputFloat.Execute (console : Console) (i : CommandData) (p : Processor) : ExecResult :=
  match console.floatInput with
  | none => .fail p .invalidFloatInput
  | some value =>
    let regIndex := i.Address1 &&& 0x07
    match calculateAddress p i.BB i.Address1 regIndex with
    | .error e => .fail p e
    | .ok addr1 =>
      match p.memory.WriteWord (addr1 : Int) ⟨⟨0, value⟩, ⟨0, 0, 0, 0⟩⟩ with
      | none => .panic
      | some m => .ok { p with memory := m }

/-- `OutputFloat.Execute`. -/
def OutputFloat.Execute (o : CommandData) (p : Processor) : ExecResult :=
  let regIndex := o.Address1 &&& 0x07
  match calculateAddress p o.BB o.Address1 regIndex with
  | .error e => .fail p e
  | .ok addr1 =>
    match p.memory.ReadWord (addr1 : Int) with
    | none => .panic
    | some _ => .ok p

/-- `LoadRegister.Execute`: absolute read at `Address2`, then the register
write (which can fail on a bad index). -/
def LoadRegister.Execute (l : CommandData) (p : Processor) : ExecResult :=
  let regIndex := l.Address1 &&& 0x07
  match p.memory.ReadWord (l.Address2 : Int) with
  | none => .panic
  | some word =>
    match p.SetRegister regIndex word.D.I with
    | .error e => .fail p e
    | .ok p1 => .ok p1

/-- `StoreRegister.Execute`: register read (index from `Address2`), then an
absolute write at `Address1`. -/
def StoreRegister.Execute (s : CommandData) (p : Processor) : ExecResult :=
  let regIndex := s.Address2 &&& 0x07
  match p.GetRegister regIndex with
  | .error e => .fail p e
  | .ok value =>
    match p.memory.WriteWord (s.Address1 : Int) ⟨⟨value, 0⟩, ⟨0, 0, 0, 0⟩⟩ with
    | none => .panic
    | some m => .ok { p with memory := m }

/-- `AddRegisters.Execute`.  Unlike `AddInt`, the operand values live in
the locals `val1`, `val2`, which the result assignment does not alias, so
the carry/overflow formulas see the true operands. -/
def AddRegisters.Execute (a : CommandData) (p : Processor) : ExecResult :=
  let regDest := a.Address1 &&& 0x07
  let regSrc := a.Address2 &&& 0x07
  match p.GetRegister regDest with
  | .error e => .fail p e
  | .ok val1 =>
    match p.GetRegister regSrc with
    | .error e => .fail p e
    | .ok val2 =>
      let result := wrap32 (val1 + val2)
      match p.SetRegister regDest result with
      | .error e => .fail p e
      | .ok p1 =>
        let hasOverflow := (val1 > 0 ∧ val2 > 0 ∧ result < 0) ∨
          (val1 < 0 ∧ val2 < 0 ∧ result > 0)
        let hasCarry := (u32 val1 + u32 val2) % 2 ^ 32 > 0x7FFFFFFF
        .ok (p1.UpdateArithmeticFlags result (decide hasCarry) (decide hasOverflow))

/-- `SubtractRegisters.Execute`. -/
def SubtractRegisters.Execute (s : CommandData) (p : Processor) : ExecResult :=
  let regDest := s.Address1 &&& 0x07
  let regSrc := s.Address2 &&& 0x07
  match p.GetRegister regDest with
  | .error e => .fail p e
  | .ok val1 =>
    match p.GetRegister regSrc with
    | .error e => .fail p e
    | .ok val2 =>
      let result := wrap32 (val1 - val2)
      match p.SetRegister regDest result with
      | .error e => .fail p e
      | .ok p1 =>
        let hasOverflow := (val1 > 0 ∧ val2 < 0 ∧ result < 0) ∨
          (val1 < 0 ∧ val2 > 0 ∧ result > 0)
        let hasCarry := u32 val1 < u32 val2
        .ok (p1.UpdateArithmeticFlags result (decide hasCarry) (decide hasOverflow))

/-- `MoveRegister.Execute`. -/
def MoveRegister.Execute (mv : CommandData) (p : Processor) : ExecResult :=
  let regDest := mv.Address1 &&& 0x07
  let regSrc := mv.Address2 &&& 0x07
  match p.GetRegister regSrc with
  | .error e => .fail p e
  | .ok value =>
    match p.SetRegister regDest value with
    | .error e => .fail p e
    | .ok p1 => .ok p1

/-- Modelled from the spec: the `OpCode` type and its constant declarations
are not among the provided source files (only their uses are); the numeric
values are those of the opcode table in the specification. -/
def STOP : Nat := 0x00

/-- Modelled from the spec: opcode value of IADD. -/
def IADD : Nat := 0x01

/-- Modelled from the spec: opcode value of ISUB. -/
def ISUB : Nat := 0x02

/-- Modelled from the spec: opcode value of IMUL. -/
def IMUL : Nat := 0x03

/-- Modelled from the spec: opcode value of IDIV. -/
def IDIV : Nat := 0x04

/-- Modelled from the spec: opcode value of IIN. -/
def IIN : Nat := 0x11

/-- Modelled from the spec: opcode value of IOUT. -/
def IOUT : Nat := 0x12

/-- Modelled from the spec: opcode value of ADDR. -/
def ADDR : Nat := 0x14

/-- Modelled from the spec: opcode value of SUBR. -/
def SUBR : Nat := 0x15

/-- Modelled from the spec: opcode value of MOVR. -/
def MOVR : Nat := 0x16

/-- Modelled from the spec: opcode value of RADD. -/
def RADD : Nat := 0x21

/-- Modelled from the spec: opcode value of RSUB. -/
def RSUB : Nat := 0x22

/-- Modelled from the spec: opcode value of RMUL. -/
def RMUL : Nat := 0x23

/-- Modelled from the spec: opcode value of RDIV. -/
def RDIV : Nat := 0x24

/-- Modelled from the spec: opcode value of RIN. -/
def RIN : Nat := 0x31

/-- Modelled from the spec: opcode value of ROUT. -/
def ROUT : Nat := 0x32

/-- Modelled from the spec: opcode value of JZ. -/
def JZ : Nat := 0x41

/-- Modelled from the spec: opcode value of JG. -/
def JG : Nat := 0x42

/-- Modelled from the spec: opcode value of JL. -/
def JL : Nat := 0x43

/-- Modelled from the spec: opcode value of LOAD. -/
def LOAD : Nat := 0x44

/-- Modelled from the spec: opcode value of STORE. -/
def STORE : Nat := 0x45

/-- The command dispatch map built by the processor constructor: exactly
the 21 registered opcodes, each mapped to its command's executor.  Note
that `STOP = 0x00` **is** registered. -/
def commandMapLookup (op : Nat) : Option (Console → CommandData → Processor → ExecResult) :=
  if op = STOP then some fun _ => Halt.Execute
  else if op = IADD then some fun _ => AddInt.Execute
  else if op = ISUB then some fun _ => SubInt.Execute
  else if op = IMUL then some fun _ => MulInt.Execute
  else if op = IDIV then some fun _ => DivInt.Execute
  else if op = IIN then some fun c => InputInt.Execute c
  else if op = IOUT then some fun _ => OutputInt.Execute
  else if op = RADD then some fun _ => AddFloat.Execute
  else if op = RSUB then some fun _ => SubFloat.Execute
  else if op = RMUL then some fun _ => MulFloat.Execute
  else if op = RDIV then some fun _ => DivFloat.Execute
  else if op = RIN then some fun c => InputFloat.Execute c
  else if op = ROUT then some fun _ => OutputFloat.Execute
  else if op = JZ then some fun _ => JumpZero.Execute
  else if op = JG then some fun _ => JumpGreater.Execute
  else if op = JL then some fun _ => JumpLess.Execute
  else if op = LOAD then some fun _ => LoadRegister.Execute
  else if op = STORE then some fun _ => StoreRegister.Execute
  else if op = ADDR then some fun _ => AddRegisters.Execute
  else if op = SUBR then some fun _ => SubtractRegisters.Execute
  else if op = MOVR then some fun _ => MoveRegister.Execute
  else none

/-- `executeNextInstruction` of `part_001`: validate IP, fetch, dispatch,
run the command, then either mark `stop` (opcode `STOP`) or set
`IP := (currentIP + 1) mod size` — note that the increment starts from the
**saved** `currentIP`, for every non-STOP opcode, including taken jumps. -/
def executeNextInstruction (console : Console) (p : Processor) : ExecResult :=
  let currentIP := p.psw.IP
  if ¬p.memory.IsValidAddress (currentIP : Int) then
    .fail p (.invalidIP currentIP)
  else
    match p.memory.ReadWord (currentIP : Int) with
    | none => .panic
    | some word =>
      match commandMapLookup word.Cmd.Opcode with
      | none => .fail p (.invalidOpcode currentIP word.Cmd.Opcode)
      | some exec =>
        match exec console word.Cmd p with
        | .panic => .panic
        | .fail p1 e => .fail p1 (.execFail currentIP e)
        | .ok p1 =>
          if word.Cmd.Opcode = STOP then .ok { p1 with stop := true }
          else .ok { p1 with psw.IP := u16 (Int.tmod ((currentIP : Int) + 1) p1.memory.size) }

/-- `Processor.Run`, with explicit fuel for the loop: the loop exits when
`stop` or `error` is set; a returned command error marks `error`; `none`
stands for a runtime panic or for running out of modelling fuel. -/
def Run (console : Console) : Nat → Processor → Option Processor
  | 0, p => if p.stop ∨ p.error then some p else none
  | fuel + 1, p =>
    if p.stop ∨ p.error then some p
    else
      match executeNextInstruction console p with
      | .ok p1 => Run console fuel p1
      | .fail p1 _ => some { p1 with error := true }
      | .panic => none

/-- `Processor.Reset`: an invalid initial IP only sets the error flag;
otherwise IP is loaded and flags, error, stop and both registers are
cleared. -/
def Processor.Reset (p : Processor) (initialIP : Nat) : Processor :=
  if ¬p.memory.IsValidAddress (initialIP : Int) then
    { p with error := true }
  else
    { p with
      psw := ⟨initialIP, false, false, false, false⟩
      error := false
      stop := false
      reg0 := 0
      reg1 := 0 }

/-! ### Loader (`loader.go`)

The program file is modelled as its list of lines.  The `strconv`
number parsers are modelled for the syntax the program format uses:
optional sign and plain digits for `ParseInt`, digits only for
`ParseUint` (Go permits no sign there), and plain decimal floats with
an optional fraction and exponent for `ParseFloat` (the exotic
`ParseFloat` inputs — `inf`, `nan`, hex floats, underscores — are
outside this model).  Range checking follows `bitSize` exactly for the
integer parsers, and the float parser reports the float32 overflow
range error; both a syntax error and a range error make the loader
fail, so the error payload is not distinguished further. -/

/-- Value of a hexadecimal digit character. -/
def hexDigitVal (c : Char) : Option Nat :=
  if '0' ≤ c ∧ c ≤ '9' then some (c.toNat - Char.toNat '0')
  else if 'a' ≤ c ∧ c ≤ 'f' then some (c.toNat - Char.toNat 'a' + 10)
  else if 'A' ≤ c ∧ c ≤ 'F' then some (c.toNat - Char.toNat 'A' + 10)
  else none

/-- Value of a decimal digit character. -/
def decDigitVal (c : Char) : Option Nat :=
  if '0' ≤ c ∧ c ≤ '9' then some (c.toNat - Char.toNat '0') else none

/-- Accumulate digit values left to right. -/
def digitsVal (digitVal : Char → Option Nat) (base : Nat) : List Char → Nat → Option Nat
  | [], acc => some acc
  | c :: cs, acc =>
    match digitVal c with
    | none => none
    | some d => digitsVal digitVal base cs (acc * base + d)

/-- Parse a nonempty digit string. -/
def parseDigits (digitVal : Char → Option Nat) (base : Nat) : List Char → Option Nat
  | [] => none
  | cs => digitsVal digitVal base cs 0

/-- Strip an optional leading sign; the Bool is "negative". -/
def splitSign : List Char → Bool × List Char
  | '-' :: cs => (true, cs)
  | '+' :: cs => (false, cs)
  | cs => (false, cs)

/-- `strconv.ParseInt(s, base, bitSize)` on plain sign-and-digits input:
`none` on a syntax or range error. -/
def goParseInt (base : Nat) (digitVal : Char → Option Nat) (bitSize : Nat)
    (s : String) : Option Int :=
  let sd := splitSign s.data
  match parseDigits digitVal base sd.2 with
  | none => none
  | some n =>
    let v : Int := if sd.1 then -(n : Int) else (n : Int)
    if -(2 ^ (bitSize - 1) : Int) ≤ v ∧ v ≤ 2 ^ (bitSize - 1) - 1 then some v else none

/-- `strconv.ParseUint(s, base, bitSize)`: sign prefixes are not
permitted. -/
def goParseUint (base : Nat) (digitVal : Char → Option Nat) (bitSize : Nat)
    (s : String) : Option Nat :=
  match parseDigits digitVal base s.data with
  | none => none
  | some n => if n ≤ 2 ^ bitSize - 1 then some n else none

/-- Longest leading run of decimal digits. -/
def takeDigits : List Char → List Nat × List Char
  | [] => ([], [])
  | c :: cs =>
    match decDigitVal c with
    | none => ([], c :: cs)
    | some d =>
      let r := takeDigits cs
      (d :: r.1, r.2)

/-- Combine digit values into a number. -/
def digitsToNat (ds : List Nat) : Nat := ds.foldl (fun a d => a * 10 + d) 0

/-- The float32 overflow threshold of `strconv.ParseFloat(s, 32)`.
`ParseFloat` rounds the decimal value to the nearest float32 (ties to
even); the largest finite float32 is `2^128 - 2^104`, so a value of
magnitude at least `2^128 - 2^103` — half an ULP above it — rounds to
infinity, and `ParseFloat` then returns `ErrRange`.  Smaller values
round to a finite float32 with no error. -/
def float32OverflowBound : Nat := 2 ^ 128 - 2 ^ 103

/-- The float32 range error of `strconv.ParseFloat(s, 32)` on the exact
decimal value `num / den` (`den > 0` at every call site): a value that
rounds to ±infinity — magnitude at least `float32OverflowBound` — is
`ErrRange`, modelled as `none`.  (Underflow toward zero loses precision
but raises no error in Go.) -/
def float32RangeCheck (num : Int) (den : Nat) : Option Rat :=
  if num ≤ -((float32OverflowBound : Int) * den) ∨ (float32OverflowBound : Int) * den ≤ num then
    none
  else some ((num : Rat) / (den : Rat))

/-- `strconv.ParseFloat(s, 32)` on plain decimal input, as an exact
rational (the parsed value is irrelevant downstream: `WriteWord`
serialises only the integer field).  The digits `ip.fp` denote the
rational `(ip * 10^|fp| + fp) / 10^|fp|`, scaled by `10^±ex` for an
exponent part; a value whose magnitude reaches `float32OverflowBound`
rounds to infinity and is the `ErrRange` error, `none` here — so for
example `1e39` is rejected, as in Go. -/
def goParseFloatDec (s : String) : Option Rat :=
  let sd := splitSign s.data
  let ipr := takeDigits sd.2
  let fpr :=
    match ipr.2 with
    | '.' :: r => takeDigits r
    | other => (([] : List Nat), other)
  if ipr.1 = [] ∧ fpr.1 = [] then none
  else
    let mantNum : Nat := digitsToNat ipr.1 * 10 ^ fpr.1.length + digitsToNat fpr.1
    let mantNum : Int := if sd.1 then -(mantNum : Int) else (mantNum : Int)
    let mantDen : Nat := 10 ^ fpr.1.length
    match fpr.2 with
    | [] => float32RangeCheck mantNum mantDen
    | e :: r =>
      if e = 'e' ∨ e = 'E' then
        let ed := splitSign r
        match parseDigits decDigitVal 10 ed.2 with
        | none => none
        | some ex =>
          if ed.1 then float32RangeCheck mantNum (mantDen * 10 ^ ex)
          else float32RangeCheck (mantNum * (10 ^ ex : Nat)) mantDen
      else none

/-- Drop everything from the first `#` on (`strings.Index` + slice). -/
def stripComment (line : String) : List Char :=
  line.data.takeWhile (fun c => c ≠ '#')

/-- Whitespace for `strings.Fields` / `strings.TrimSpace` (ASCII part of
`unicode.IsSpace`). -/
def isSpaceChar (c : Char) : Bool :=
  c = ' ' ∨ c = '\t' ∨ c = '\n' ∨ c = '\r' ∨ c = '\u000b' ∨ c = '\u000c'

/-- Split on whitespace runs (`strings.Fields`); the accumulator holds the
current field reversed. -/
def fieldsAux : List Char → List Char → List String
  | [], cur => if cur = [] then [] else [String.mk cur.reverse]
  | c :: cs, cur =>
    if isSpaceChar c then
      if cur = [] then fieldsAux cs []
      else String.mk cur.reverse :: fieldsAux cs []
    else fieldsAux cs (c :: cur)

/-- Fields of a line after comment stripping.  An empty result covers both
of the loader's skip paths (blank line, no tokens). -/
def fieldsOf (line : String) : List String := fieldsAux (stripComment line) []

/-- ASCII `strings.ToLower`. -/
def toLowerStr (s : String) : String :=
  String.mk (s.data.map fun c => if 'A' ≤ c ∧ c ≤ 'Z' then Char.ofNat (c.toNat + 32) else c)

/-- Loader loop state: the memory being filled, the write cursor, the
recorded entry point, and the current line number. -/
structure LoaderState where
  memory : Memory
  address : Int
  initialIP : Nat
  entryPointSet : Bool
  lineNumber : Nat

/-- Loader outcome: success with the entry point and the filled memory, a
`CommandError` (line number kept, message dropped), or a Go runtime panic
(a `WriteWord` outside `[0, size-4]`). -/
inductive LoadResult where
  | ok (entry : Nat) (memory : Memory)
  | fail (lineNumber : Nat)
  | panic

/-- One line either continues the loop or ends it. -/
inductive LineStep where
  | next (st : LoaderState)
  | halt (r : LoadResult)

/-- `isValidOpcode` of `loader.go`. -/
def isValidOpcode (opcode : Nat) : Prop := opcode ≤ 0x45

instance (n : Nat) : Decidable (isValidOpcode n) := by
  unfold isValidOpcode; infer_instance

/-- `isValidBB` of `loader.go`. -/
def isValidBB (bb : Nat) : Prop := bb ≤ 0x03

instance (n : Nat) : Decidable (isValidBB n) := by
  unfold isValidBB; infer_instance

/-- `isValidAddress` of `loader.go` (note: only an upper bound — the
argument is unsigned). -/
def loaderIsValidAddress (addr : Nat) (m : Memory) : Prop := (addr : Int) < m.size

instance (n : Nat) (m : Memory) : Decidable (loaderIsValidAddress n m) := by
  unfold loaderIsValidAddress; infer_instance

/-- One iteration of the `readProgramFromFile` scan loop, for a line whose
number is already counted in `st.lineNumber`. -/
def processLine (st : LoaderState) (line : String) : LineStep :=
  match fieldsOf line with
  | [] => .next st
  | cmd :: args =>
    let command := toLowerStr cmd
    if command = "a" then
      match args with
      | [] => .halt (.fail st.lineNumber)
      | tok :: _ =>
        match goParseInt 16 hexDigitVal 32 tok with
        | none => .halt (.fail st.lineNumber)
        | some addr =>
          if ¬st.memory.IsValidAddress addr then .halt (.fail st.lineNumber)
          else .next { st with address := addr }
    else if command = "e" then
      match args with
      | [] => .halt (.fail st.lineNumber)
      | tok :: _ =>
        match goParseInt 16 hexDigitVal 16 tok with
        | none => .halt (.fail st.lineNumber)
        | some ip =>
          if ¬st.memory.IsValidAddress ip then .halt (.fail st.lineNumber)
          else .next { st with initialIP := u16 ip, entryPointSet := true }
    else if command = "i" then
      match args with
      | [] => .halt (.fail st.lineNumber)
      | tok :: _ =>
        match goParseInt 10 decDigitVal 32 tok with
        | none => .halt (.fail st.lineNumber)
        | some value =>
          match st.memory.WriteWord st.address ⟨⟨value, 0⟩, ⟨0, 0, 0, 0⟩⟩ with
          | none => .halt .panic
          | some m => .next { st with memory := m, address := st.address + 1 }
    else if command = "r" then
      match args with
      | [] => .halt (.fail st.lineNumber)
      | tok :: _ =>
        match goParseFloatDec tok with
        | none => .halt (.fail st.lineNumber)
        | some value =>
          match st.memory.WriteWord st.address ⟨⟨0, value⟩, ⟨0, 0, 0, 0⟩⟩ with
          | none => .halt .panic
          | some m => .next { st with memory := m, address := st.address + 1 }
    else if command = "k" then
      match args with
      | t1 :: t2 :: t3 :: t4 :: _ =>
        match goParseUint 16 hexDigitVal 8 t1 with
        | none => .halt (.fail st.lineNumber)
        | some opcode =>
          if ¬isValidOpcode opcode then .halt (.fail st.lineNumber)
          else
            match goParseUint 16 hexDigitVal 8 t2 with
            | none => .halt (.fail st.lineNumber)
            | some bb =>
              if ¬isValidBB bb then .halt (.fail st.lineNumber)
              else
                match goParseUint 16 hexDigitVal 16 t3 with
                | none => .halt (.fail st.lineNumber)
                | some addr1 =>
                  if ¬loaderIsValidAddress addr1 st.memory then .halt (.fail st.lineNumber)
                  else
                    match goParseUint 16 hexDigitVal 16 t4 with
                    | none => .halt (.fail st.lineNumber)
                    | some addr2 =>
                      if ¬loaderIsValidAddress addr2 st.memory then .halt (.fail st.lineNumber)
                      else
                        match st.memory.WriteWord st.address
                            ⟨⟨0, 0⟩, ⟨opcode, bb, addr1, addr2⟩⟩ with
                        | none => .halt .panic
                        | some m => .next { st with memory := m, address := st.address + 1 }
      | _ => .halt (.fail st.lineNumber)
    else if command = "s" then
      if ¬st.entryPointSet then .halt (.fail st.lineNumber)
      else .halt (.ok st.initialIP st.memory)
    else .halt (.fail st.lineNumber)

/-- The `readProgramFromFile` scan loop over the remaining lines; end of
input without an `s` directive is an error. -/
def readProgramLines : LoaderState → List String → LoadResult
  | st, [] => .fail st.lineNumber
  | st, line :: rest =>
    let st1 := { st with lineNumber := st.lineNumber + 1 }
    match processLine st1 line with
    | .next st2 => readProgramLines st2 rest
    | .halt r => r

/-- `readProgramFromFile` for a processor-sized (65536-byte) memory. -/
def readProgramFromFile (lines : List String) : LoadResult :=
  readProgramLines ⟨NewMemory 65536, 0, 0, false, 0⟩ lines

/-! ### Concrete states, projections and spec-side definitions used by the
theorems below. -/

/-- The byte patch `WriteWord` performs: four little-endian bytes of `raw`
at `a .. a+3`. -/
def patchBytes (m : Memory) (a : Int) (raw : Nat) : Memory :=
  { m with data := fun i =>
      (if i = a then raw % 256
       else if i = a + 1 then raw / 2 ^ 8 % 256
       else if i = a + 2 then raw / 2 ^ 16 % 256
       else if i = a + 3 then raw / 2 ^ 24 % 256
       else m.data i) }

/-- Instruction pointer of a step result. -/
def ExecResult.ipOf : ExecResult → Option Nat
  | .ok p => some p.psw.IP
  | .fail p _ => some p.psw.IP
  | .panic => none

/-- Stop flag of a step result. -/
def ExecResult.stopOf : ExecResult → Option Bool
  | .ok p => some p.stop
  | .fail p _ => some p.stop
  | .panic => none

/-- Error flag of a step result. -/
def ExecResult.errorOf : ExecResult → Option Bool
  | .ok p => some p.error
  | .fail p _ => some p.error
  | .panic => none

/-- Whether a step result is a plain success (no returned error, no
panic). -/
def ExecResult.isOk : ExecResult → Bool
  | .ok _ => true
  | _ => false

/-- Carry flag of a step result. -/
def ExecResult.carryOf : ExecResult → Option Bool
  | .ok p => some p.psw.CarryFlag
  | .fail p _ => some p.psw.CarryFlag
  | .panic => none

/-- Word read from the resulting state's memory. -/
def ExecResult.readAt : ExecResult → Int → Option Word
  | .ok p, a => p.memory.ReadWord a
  | .fail p _, a => p.memory.ReadWord a
  | .panic, _ => none

/-- Entry point of a loader outcome. -/
def LoadResult.entryOf : LoadResult → Option Nat
  | .ok e _ => some e
  | _ => none

/-- Whether the loader stopped with a `CommandError`. -/
def LoadResult.isFail : LoadResult → Bool
  | .fail _ => true
  | _ => false

/-- A 16-bit word reinterpreted as a signed 16-bit value, the reading the
specification uses for the JG/JL comparisons. -/
def signed16 (n : Nat) : Int := if n < 2 ^ 15 then (n : Int) else (n : Int) - 2 ^ 16

/-- Zeroed processor-sized memory. -/
def memZ : Memory := NewMemory 65536

/-- A console with no parseable input. -/
def console0 : Console := ⟨none, none⟩

/-- Cleared PSW. -/
def pswZ : PSW := ⟨0, false, false, false, false⟩

/-- Memory holding `JZ BB=00 Address1=5 Address2=0` at address 0 (raw word
`0x41001400`, little-endian bytes `00 14 00 41`). -/
def memJZ : Memory :=
  { memZ with data := fun i => if i = 1 then 0x14 else if i = 3 then 0x41 else 0 }

/-- Processor about to execute that JZ with all flags clear. -/
def pJZ : Processor := ⟨memJZ, pswZ, 0, 0, false, false⟩

/-- Processor on zeroed memory. -/
def pZ : Processor := ⟨memZ, pswZ, 0, 0, false, false⟩

/-- Processor with only the sign flag set. -/
def pS : Processor := ⟨memZ, ⟨0, true, false, false, false⟩, 0, 0, false, false⟩

/-- Data word holding 5. -/
def wD5 : Word := ⟨⟨5, 0⟩, ⟨0, 0, 0, 0⟩⟩

/-- Memory with data 5 at address 16 and data 3 at address 20. -/
def memSub : Memory :=
  { memZ with data := fun i => if i = 16 then 5 else if i = 20 then 3 else 0 }

/-- Processor over `memSub`. -/
def pSub : Processor := ⟨memSub, pswZ, 0, 0, false, false⟩

/-- Command word with an out-of-field-range `Address2 = 0x400`. -/
def wC6 : Word := ⟨⟨0, 0⟩, ⟨1, 0, 0, 0x400⟩⟩

/-- In-range command word for the round-trip instance. -/
def wK : Word := ⟨⟨0, 0⟩, ⟨0x41, 2, 0xABC, 0x155⟩⟩

/-- Memory whose destination cell (address 0) holds the command word
`0x41000000` and whose divisor cell (address 4) holds data 3. -/
def memDiv : Memory :=
  { memZ with data := fun i => if i = 3 then 0x41 else if i = 4 then 3 else 0 }

/-- Processor over `memDiv`. -/
def pDiv : Processor := ⟨memDiv, pswZ, 0, 0, false, false⟩

/-- Memory with data 6 at address 8 and data 3 at address 12. -/
def memDiv2 : Memory :=
  { memZ with data := fun i => if i = 8 then 6 else if i = 12 then 3 else 0 }

/-- Processor over `memDiv2`. -/
def pDiv2 : Processor := ⟨memDiv2, pswZ, 0, 0, false, false⟩

/-- Processor with a one-byte memory, so that uint16 instruction pointers
can be invalid addresses. -/
def pTiny : Processor := ⟨NewMemory 1, pswZ, 0, 0, false, false⟩

/-- Spec-side cursor for the loader grammar: the current write address and
the recorded entry point, nothing else. -/
structure SpecCursor where
  address : Int
  entry : Option Nat

/-- The spec-side view of a loader state. -/
def specCursorOf (st : LoaderState) : SpecCursor :=
  ⟨st.address, if st.entryPointSet then some st.initialIP else none⟩

/-- Spec-side check of one line against the loader grammar. -/
def specDirStep (size : Int) (st : SpecCursor) (line : String) : Option (SpecCursor ⊕ Nat) :=
  match fieldsOf line with
  | [] => some (.inl st)
  | cmd :: args =>
    if toLowerStr cmd = "a" then
      match args with
      | [] => none
      | tok :: _ =>
        match goParseInt 16 hexDigitVal 32 tok with
        | none => none
        | some addr =>
          if 0 ≤ addr ∧ addr < size then some (.inl { st with address := addr }) else none
    else if toLowerStr cmd = "e" then
      match args with
      | [] => none
      | tok :: _ =>
        match goParseInt 16 hexDigitVal 16 tok with
        | none => none
        | some ip =>
          if 0 ≤ ip ∧ ip < size then some (.inl { st with entry := some (u16 ip) }) else none
    else if toLowerStr cmd = "i" then
      match args with
      | [] => none
      | tok :: _ =>
        match goParseInt 10 decDigitVal 32 tok with
        | none => none
        | some _ =>
          if 0 ≤ st.address ∧ st.address + 4 ≤ size then
            some (.inl { st with address := st.address + 1 })
          else none
    else if toLowerStr cmd = "r" then
      match args with
      | [] => none
      | tok :: _ =>
        match goParseFloatDec tok with
        | none => none
        | some _ =>
          if 0 ≤ st.address ∧ st.address + 4 ≤ size then
            some (.inl { st with address := st.address + 1 })
          else none
    else if toLowerStr cmd = "k" then
      match args with
      | t1 :: t2 :: t3 :: t4 :: _ =>
        match goParseUint 16 hexDigitVal 8 t1 with
        | none => none
        | some opcode =>
          if opcode ≤ 0x45 then
            match goParseUint 16 hexDigitVal 8 t2 with
            | none => none
            | some bb =>
              if bb ≤ 0x03 then
                match goParseUint 16 hexDigitVal 16 t3 with
                | none => none
                | some addr1 =>
                  if (addr1 : Int) < size then
                    match goParseUint 16 hexDigitVal 16 t4 with
                    | none => none
                    | some addr2 =>
                      if (addr2 : Int) < size then
                        if 0 ≤ st.address ∧ st.address + 4 ≤ size then
                          some (.inl { st with address := st.address + 1 })
                        else none
                      else none
                  else none
              else none
          else none
      | _ => none
    else if toLowerStr cmd = "s" then
      match st.entry with
      | some e => some (.inr e)
      | none => none
    else none

/-- Running the spec-side check over the whole file, producing the entry
point when every line passes and an `s` line is reached. -/
def specFileEntry (size : Int) : SpecCursor → List String → Option Nat
  | _, [] => none
  | st, line :: rest =>
    match specDirStep size st line with
    | none => none
    | some (.inl st2) => specFileEntry size st2 rest
    | some (.inr e) => some e


theorem shiftLeft_lor_disjoint :
    ∀ (n x y : ℕ), y < 2 ^ n → x <<< n ||| y = x * 2 ^ n + y := by
  intro n
  induction n with
  | zero =>
    intro x y hy
    have : y = 0 := by omega
    subst this
    simp [Nat.shiftLeft_eq]
  | succ n ih =>
    intro x y hy
    have hyd : y.div2 < 2 ^ n := by
      rw [Nat.div2_val]
      omega
    have hdec := Nat.bit_decomp y
    have hval := Nat.bit_val y.bodd y.div2
    have h1 : x <<< (n + 1) = Nat.bit false (x <<< n) := by
      simp [Nat.shiftLeft_eq, Nat.bit_val, pow_succ]
      ring
    calc x <<< (n + 1) ||| y
        = Nat.bit false (x <<< n) ||| Nat.bit y.bodd y.div2 := by rw [h1, hdec]
      _ = Nat.bit y.bodd (x <<< n ||| y.div2) := by rw [Nat.lor_bit]; simp
      _ = Nat.bit y.bodd (x * 2 ^ n + y.div2) := by rw [ih x y.div2 hyd]
      _ = x * 2 ^ (n + 1) + y := by
          rw [Nat.bit_val, pow_succ]
          rw [hval] at hdec
          have h2 : x * (2 ^ n * 2) = x * 2 ^ n * 2 := by ring
          rw [h2]
          set A := x * 2 ^ n
          omega

theorem rawValue_cmd_eq (w : Word) (hop : 0 < w.Cmd.Opcode)
    (hbb : w.Cmd.BB < 2 ^ 2) (ha1 : w.Cmd.Address1 < 2 ^ 12) (ha2 : w.Cmd.Address2 < 2 ^ 10) :
    w.rawValue = w.Cmd.Opcode * 2 ^ 24 + w.Cmd.BB * 2 ^ 22 +
      w.Cmd.Address1 * 2 ^ 10 + w.Cmd.Address2 := by
  unfold Word.rawValue
  rw [if_pos hop]
  rw [Nat.lor_assoc, Nat.lor_assoc]
  rw [shiftLeft_lor_disjoint 10 w.Cmd.Address1 w.Cmd.Address2 ha2]
  have hinner1 : w.Cmd.Address1 * 2 ^ 10 + w.Cmd.Address2 < 2 ^ 22 := by omega
  rw [shiftLeft_lor_disjoint 22 w.Cmd.BB _ hinner1]
  have hinner2 : w.Cmd.BB * 2 ^ 22 + (w.Cmd.Address1 * 2 ^ 10 + w.Cmd.Address2) < 2 ^ 24 := by
    omega
  rw [shiftLeft_lor_disjoint 24 w.Cmd.Opcode _ hinner2]
  ring

theorem u32_lt (x : Int) : u32 x < 2 ^ 32 := by
  unfold u32
  omega

theorem WriteWord_eq (m : Memory) (a : Int) (w : Word) (h : 0 ≤ a ∧ a + 4 ≤ m.size) :
    m.WriteWord a w = some (patchBytes m a w.rawValue) := by
  simp only [Memory.WriteWord, patchBytes]
  rw [if_pos h]

theorem ReadWord_patchBytes (m : Memory) (a : Int) (raw : Nat)
    (h : 0 ≤ a ∧ a + 4 ≤ m.size) (hraw : raw < 2 ^ 32) :
    (patchBytes m a raw).ReadWord a =
      some (if raw / 2 ^ 24 > 0 then
        ⟨⟨0, 0⟩, ⟨raw >>> 24, raw >>> 22 &&& 0x03, raw >>> 10 &&& 0xFFF, raw &&& 0x3FF⟩⟩
      else ⟨⟨i32ofU32 raw, 0⟩, ⟨0, 0, 0, 0⟩⟩) := by
  have hsz : (patchBytes m a raw).size = m.size := rfl
  unfold Memory.ReadWord
  rw [if_pos (by rw [hsz]; exact h)]
  simp only [patchBytes]
  have e1 : a + 1 ≠ a := by omega
  have e2 : a + 2 ≠ a := by omega
  have e3 : a + 3 ≠ a := by omega
  have e21 : a + 2 ≠ a + 1 := by omega
  have e31 : a + 3 ≠ a + 1 := by omega
  have e32 : a + 3 ≠ a + 2 := by omega
  simp only [if_pos rfl, if_neg e1, if_neg e2, if_neg e3, if_neg e21, if_neg e31, if_neg e32,
    ite_true]
  have hb3 : raw / 2 ^ 24 % 256 = raw / 2 ^ 24 := by omega
  have hrecomb : raw % 256 + raw / 2 ^ 8 % 256 * 2 ^ 8 + raw / 2 ^ 16 % 256 * 2 ^ 16 +
      raw / 2 ^ 24 % 256 * 2 ^ 24 = raw := by omega
  rw [hrecomb, hb3]
  exact (apply_ite some _ _ _).symm

theorem hexMask_shift (raw k n : Nat) :
    raw >>> k &&& (2 ^ n - 1) = raw / 2 ^ k % 2 ^ n := by
  rw [Nat.shiftRight_eq_div_pow, Nat.and_pow_two_sub_one_eq_mod]

/-- C6 (amended): the write/read round-trip preserves all four command
fields exactly when each lies within its encoded width (opcode in
`[1, 0x45]`, `BB < 4`, `Address1 < 0x1000`, `Address2 < 0x400`); because
the packing masks nothing, wider values bleed into neighbouring fields
(see the counterexample). -/
theorem command_roundtrip_in_range (m : Memory) (a : Int) (w : Word)
    (hop1 : 1 ≤ w.Cmd.Opcode) (hop2 : w.Cmd.Opcode ≤ 0x45)
    (hbb : w.Cmd.BB < 0x04) (ha1 : w.Cmd.Address1 < 0x1000) (ha2 : w.Cmd.Address2 < 0x400)
    (h0 : 0 ≤ a) (h4 : a + 4 ≤ m.size) :
    ∃ m2, m.WriteWord a w = some m2 ∧
      m2.ReadWord a = some ⟨⟨0, 0⟩, ⟨w.Cmd.Opcode, w.Cmd.BB, w.Cmd.Address1, w.Cmd.Address2⟩⟩ := by
  have hadd := rawValue_cmd_eq w (by omega) (by norm_num at hbb ⊢; omega)
    (by norm_num at ha1 ⊢; omega) (by norm_num at ha2 ⊢; omega)
  have hraw : w.rawValue < 2 ^ 32 := by rw [hadd]; omega
  refine ⟨patchBytes m a w.rawValue, WriteWord_eq m a w ⟨h0, h4⟩, ?_⟩
  rw [ReadWord_patchBytes m a w.rawValue ⟨h0, h4⟩ hraw]
  have htop : w.rawValue / 2 ^ 24 > 0 := by omega
  rw [if_pos htop]
  congr 1
  have f1 : w.rawValue >>> 24 = w.Cmd.Opcode := by
    rw [Nat.shiftRight_eq_div_pow]
    omega
  have f2 : w.rawValue >>> 22 &&& 0x03 = w.Cmd.BB := by
    have := hexMask_shift w.rawValue 22 2
    norm_num at this ⊢
    rw [this]
    omega
  have f3 : w.rawValue >>> 10 &&& 0xFFF = w.Cmd.Address1 := by
    have := hexMask_shift w.rawValue 10 12
    norm_num at this ⊢
    rw [this]
    omega
  have f4 : w.rawValue &&& 0x3FF = w.Cmd.Address2 := by
    have := hexMask_shift w.rawValue 0 10
    norm_num at this ⊢
    rw [this]
    omega
  rw [f1, f2, f3, f4]

/-- C7: writing an int32 `x` as a data word and reading the cell back
yields the integer view `x` iff the top byte of the 32-bit representation
of `x` is zero; otherwise — which includes every negative `x` — the read
returns a command view with a nonzero opcode. -/
theorem data_roundtrip_top_byte (m : Memory) (a : Int) (x : Int)
    (hx1 : -(2 ^ 31) ≤ x) (hx2 : x < 2 ^ 31) (h0 : 0 ≤ a) (h4 : a + 4 ≤ m.size) :
    ∃ m2, m.WriteWord a ⟨⟨x, 0⟩, ⟨0, 0, 0, 0⟩⟩ = some m2 ∧
      ∃ w, m2.ReadWord a = some w ∧
        (w.D.I = x ↔ u32 x / 2 ^ 24 = 0) ∧
        (u32 x / 2 ^ 24 ≠ 0 → w.Cmd.Opcode ≠ 0) ∧
        (x < 0 → u32 x / 2 ^ 24 ≠ 0) := by
  have hrw : Word.rawValue ⟨⟨x, 0⟩, ⟨0, 0, 0, 0⟩⟩ = u32 x := rfl
  have hraw : Word.rawValue ⟨⟨x, 0⟩, ⟨0, 0, 0, 0⟩⟩ < 2 ^ 32 := by rw [hrw]; exact u32_lt x
  have hneg : x < 0 → u32 x / 2 ^ 24 ≠ 0 := by
    unfold u32
    intro hx
    have h32 : (2 : Int) ^ 32 = 4294967296 := by norm_num
    omega
  refine ⟨patchBytes m a _, WriteWord_eq m a _ ⟨h0, h4⟩, ?_⟩
  rw [ReadWord_patchBytes m a _ ⟨h0, h4⟩ hraw, hrw]
  by_cases htop : u32 x / 2 ^ 24 > 0
  · rw [if_pos htop]
    refine ⟨_, rfl, ?_, ?_, fun _ => by omega⟩
    · constructor
      · intro h0x
        exfalso
        have hx0 : x = 0 := by simpa using h0x.symm
        subst hx0
        simp [u32] at htop
      · intro hz
        omega
    · intro _
      have : u32 x >>> 24 = u32 x / 2 ^ 24 := Nat.shiftRight_eq_div_pow _ _
      simp only [this]
      omega
  · rw [if_neg htop]
    have hz : u32 x / 2 ^ 24 = 0 := by omega
    have hsmall : u32 x < 2 ^ 31 := by omega
    have hval : i32ofU32 (u32 x) = x := by
      unfold i32ofU32 u32 at *
      have h32 : (2 : Int) ^ 32 = 4294967296 := by norm_num
      omega
    exact ⟨_, rfl, by simp [hval]; omega, by omega, fun hx => absurd (hneg hx) (by omega)⟩

theorem calcAddr_reg0 (p : Processor) (bb addr : Nat) :
    ∃ t, calculateAddress p bb addr 0 = .ok t := by
  unfold calculateAddress Processor.GetRegister NUM_REGISTERS
  split_ifs <;> first
  | exact ⟨_, rfl⟩
  | omega

theorem readWord_F_zero (m : Memory) (a : Int) (w : Word)
    (h : m.ReadWord a = some w) : w.D.F = 0 := by
  simp only [Memory.ReadWord] at h
  split_ifs at h
  · injection h with h2
    rw [← h2]
  · injection h with h2
    rw [← h2]

/-- C2 (amended): for every state whose word at `IP` is a readable data
word (high byte 0), `executeNextInstruction` succeeds and only sets the
stop flag: opcode byte 0 is dispatched as STOP, so the engine halts
normally rather than failing with `InvalidOpcode`. -/
theorem data_word_fetch_executes_as_stop (console : Console) (p : Processor)
    (h4 : (p.psw.IP : Int) + 4 ≤ p.memory.size)
    (hb3 : p.memory.data ((p.psw.IP : Int) + 3) = 0) :
    executeNextInstruction console p = .ok { p with stop := true } := by
  have hvalid : p.memory.IsValidAddress (p.psw.IP : Int) := ⟨Int.ofNat_nonneg _, by omega⟩
  have hread : p.memory.ReadWord (p.psw.IP : Int) =
      some ⟨⟨i32ofU32 (p.memory.data (p.psw.IP : Int) +
        p.memory.data ((p.psw.IP : Int) + 1) * 2 ^ 8 +
        p.memory.data ((p.psw.IP : Int) + 2) * 2 ^ 16 + 0 * 2 ^ 24), 0⟩, ⟨0, 0, 0, 0⟩⟩ := by
    unfold Memory.ReadWord
    rw [if_pos ⟨Int.ofNat_nonneg _, h4⟩]
    rw [hb3]
    simp
  unfold executeNextInstruction
  rw [if_neg (not_not_intro hvalid), hread]
  have hmap : commandMapLookup 0 = some fun _ => Halt.Execute := rfl
  simp only [hmap, Halt.Execute]
  rfl

/-- C10: `Reset` with an invalid initial IP changes only the error flag
(setting it true); IP, the four condition flags, both registers, the stop
flag and the memory are exactly as before, and any subsequent `Run`
executes no instruction because the loop guard already fails. -/
theorem reset_invalid_ip_frame (p : Processor) (ip : Nat)
    (h : ¬p.memory.IsValidAddress (ip : Int)) :
    p.Reset ip = { p with error := true } ∧
      ∀ (console : Console) (fuel : Nat),
        Run console fuel (p.Reset ip) = some (p.Reset ip) := by
  have hr : p.Reset ip = { p with error := true } := by
    unfold Processor.Reset
    rw [if_pos (by exact h)]
  refine ⟨hr, fun console fuel => ?_⟩
  rw [hr]
  cases fuel <;> simp [Run]

/-- C3 (amended): `JumpLess.Execute` never changes the state — the Go
uint16 comparison `GetFlags() < 0` is always false — and
`JumpGreater.Execute` jumps iff the packed flag word is nonzero (an
unsigned `> 0` test), not iff the flag word is positive as a signed
16-bit value. -/
theorem jump_greater_unsigned_jump_less_never (p : Processor) (cd : CommandData) :
    JumpLess.Execute cd p = .ok p ∧
    (p.GetFlags = 0 → JumpGreater.Execute cd p = .ok p) ∧
    (p.GetFlags ≠ 0 → ∃ target, calculateAddress p cd.BB cd.Address1 0 = .ok target ∧
      JumpGreater.Execute cd p = .ok { p with psw.IP := target }) := by
  refine ⟨?_, ?_, ?_⟩
  · unfold JumpLess.Execute
    rw [if_neg (Nat.not_lt_zero _)]
  · intro h
    unfold JumpGreater.Execute
    rw [if_neg (by omega)]
  · intro h
    obtain ⟨t, ht⟩ := calcAddr_reg0 p cd.BB cd.Address1
    refine ⟨t, ht, ?_⟩
    unfold JumpGreater.Execute
    rw [if_pos (by omega), ht]

theorem ovAdd_false (r b : Int) :
    decide ((r > 0 ∧ b > 0 ∧ r < 0) ∨ (r < 0 ∧ b < 0 ∧ r > 0)) = false :=
  decide_eq_false (by rintro (⟨ha, _, hc⟩ | ⟨ha, _, hc⟩) <;> omega)

theorem ovSub_false (r b : Int) :
    decide ((r > 0 ∧ b < 0 ∧ r < 0) ∨ (r < 0 ∧ b > 0 ∧ r > 0)) = false :=
  decide_eq_false (by rintro (⟨ha, _, hc⟩ | ⟨ha, _, hc⟩) <;> omega)

/-- C5 (amended): after ADDR and SUBR the carry and overflow formulas of
the claim hold with the register operand values `val1`, `val2`.  After
IADD and ISUB the destination variable is overwritten with the result `r`
before the flag computation, so `a` in the formulas is replaced by `r`:
the overflow flag is always false, the IADD carry is
`(u32 r + u32 b) mod 2^32 > 0x7FFFFFFF`, and the ISUB borrow is
`u32 r < u32 b`. -/
theorem arithmetic_flags_after_add_sub :
    (∀ (p : Processor) (cd : CommandData) (e1 e2 : Nat) (w1 w2 : Word) (m2 : Memory),
      calculateAddress p cd.BB cd.Address1 (cd.Address1 &&& 0x07) = .ok e1 →
      calculateAddress p cd.BB cd.Address2 (cd.Address1 &&& 0x07) = .ok e2 →
      p.memory.ReadWord (e1 : Int) = some w1 →
      p.memory.ReadWord (e2 : Int) = some w2 →
      p.memory.WriteWord (e1 : Int) { w1 with D.I := wrap32 (w1.D.I + w2.D.I) } = some m2 →
      ∃ p2, AddInt.Execute cd p = .ok p2 ∧
        p2.psw.OverflowFlag = false ∧
        p2.psw.CarryFlag =
          decide ((u32 (wrap32 (w1.D.I + w2.D.I)) + u32 w2.D.I) % 2 ^ 32 > 0x7FFFFFFF) ∧
        p2.psw.SignFlag = decide (wrap32 (w1.D.I + w2.D.I) < 0) ∧
        p2.psw.ZeroFlag = decide (wrap32 (w1.D.I + w2.D.I) = 0) ∧
        p2.memory = m2 ∧ p2.psw.IP = p.psw.IP) ∧
    (∀ (p : Processor) (cd : CommandData) (e1 e2 : Nat) (w1 w2 : Word) (m2 : Memory),
      calculateAddress p cd.BB cd.Address1 (cd.Address1 &&& 0x07) = .ok e1 →
      calculateAddress p cd.BB cd.Address2 (cd.Address1 &&& 0x07) = .ok e2 →
      p.memory.ReadWord (e1 : Int) = some w1 →
      p.memory.ReadWord (e2 : Int) = some w2 →
      p.memory.WriteWord (e1 : Int) { w1 with D.I := wrap32 (w1.D.I - w2.D.I) } = some m2 →
      ∃ p2, SubInt.Execute cd p = .ok p2 ∧
        p2.psw.OverflowFlag = false ∧
        p2.psw.CarryFlag = decide (u32 (wrap32 (w1.D.I - w2.D.I)) < u32 w2.D.I) ∧
        p2.psw.SignFlag = decide (wrap32 (w1.D.I - w2.D.I) < 0) ∧
        p2.psw.ZeroFlag = decide (wrap32 (w1.D.I - w2.D.I) = 0) ∧
        p2.memory = m2 ∧ p2.psw.IP = p.psw.IP) ∧
    (∀ (p : Processor) (cd : CommandData) (val1 val2 : Int) (p1 : Processor),
      p.GetRegister (cd.Address1 &&& 0x07) = .ok val1 →
      p.GetRegister (cd.Address2 &&& 0x07) = .ok val2 →
      p.SetRegister (cd.Address1 &&& 0x07) (wrap32 (val1 + val2)) = .ok p1 →
      ∃ p2, AddRegisters.Execute cd p = .ok p2 ∧
        p2.psw.OverflowFlag = decide ((val1 > 0 ∧ val2 > 0 ∧ wrap32 (val1 + val2) < 0) ∨
          (val1 < 0 ∧ val2 < 0 ∧ wrap32 (val1 + val2) > 0)) ∧
        p2.psw.CarryFlag = decide ((u32 val1 + u32 val2) % 2 ^ 32 > 0x7FFFFFFF) ∧
        p2.psw.SignFlag = decide (wrap32 (val1 + val2) < 0) ∧
        p2.psw.ZeroFlag = decide (wrap32 (val1 + val2) = 0)) ∧
    (∀ (p : Processor) (cd : CommandData) (val1 val2 : Int) (p1 : Processor),
      p.GetRegister (cd.Address1 &&& 0x07) = .ok val1 →
      p.GetRegister (cd.Address2 &&& 0x07) = .ok val2 →
      p.SetRegister (cd.Address1 &&& 0x07) (wrap32 (val1 - val2)) = .ok p1 →
      ∃ p2, SubtractRegisters.Execute cd p = .ok p2 ∧
        p2.psw.OverflowFlag = decide ((val1 > 0 ∧ val2 < 0 ∧ wrap32 (val1 - val2) < 0) ∨
          (val1 < 0 ∧ val2 > 0 ∧ wrap32 (val1 - val2) > 0)) ∧
        p2.psw.CarryFlag = decide (u32 val1 < u32 val2) ∧
        p2.psw.SignFlag = decide (wrap32 (val1 - val2) < 0) ∧
        p2.psw.ZeroFlag = decide (wrap32 (val1 - val2) = 0)) := by
  refine ⟨?_, ?_, ?_, ?_⟩
  · intro p cd e1 e2 w1 w2 m2 h1 h2 h3 h4 h5
    refine ⟨Processor.UpdateArithmeticFlags { p with memory := m2 }
      (wrap32 (w1.D.I + w2.D.I))
      (decide ((u32 (wrap32 (w1.D.I + w2.D.I)) + u32 w2.D.I) % 2 ^ 32 > 0x7FFFFFFF)) false,
      ?_, rfl, rfl, rfl, rfl, rfl, rfl⟩
    simp only [AddInt.Execute, h1, h2, h3, h4, ovAdd_false]
    rw [h5]
  · intro p cd e1 e2 w1 w2 m2 h1 h2 h3 h4 h5
    refine ⟨Processor.UpdateArithmeticFlags { p with memory := m2 }
      (wrap32 (w1.D.I - w2.D.I))
      (decide (u32 (wrap32 (w1.D.I - w2.D.I)) < u32 w2.D.I)) false,
      ?_, rfl, rfl, rfl, rfl, rfl, rfl⟩
    simp only [SubInt.Execute, h1, h2, h3, h4, ovSub_false]
    rw [h5]
  · intro p cd val1 val2 p1 h1 h2 h3
    refine ⟨Processor.UpdateArithmeticFlags p1 (wrap32 (val1 + val2))
      (decide ((u32 val1 + u32 val2) % 2 ^ 32 > 0x7FFFFFFF))
      (decide ((val1 > 0 ∧ val2 > 0 ∧ wrap32 (val1 + val2) < 0) ∨
        (val1 < 0 ∧ val2 < 0 ∧ wrap32 (val1 + val2) > 0))),
      ?_, rfl, rfl, rfl, rfl⟩
    simp only [AddRegisters.Execute, h1, h2]
    rw [h3]
  · intro p cd val1 val2 p1 h1 h2 h3
    refine ⟨Processor.UpdateArithmeticFlags p1 (wrap32 (val1 - val2))
      (decide (u32 val1 < u32 val2))
      (decide ((val1 > 0 ∧ val2 < 0 ∧ wrap32 (val1 - val2) < 0) ∨
        (val1 < 0 ∧ val2 > 0 ∧ wrap32 (val1 - val2) > 0))),
      ?_, rfl, rfl, rfl, rfl⟩
    simp only [SubtractRegisters.Execute, h1, h2]
    rw [h3]

/-- C8 (amended): IDIV with a zero integer divisor — and RDIV always,
since the float view of any word read from memory is 0 — fails with the
division-by-zero error, sets the processor error flag, and leaves memory
untouched; IDIV with a nonzero divisor writes the updated destination
word back (re-encoding an unchanged command when the destination held a
command word, so only a data destination receives the quotient) and sets
C = V = false and S/Z from the quotient. -/
theorem divide_by_zero_guards :
    (∀ (p : Processor) (cd : CommandData) (e1 e2 : Nat) (w1 w2 : Word),
      calculateAddress p cd.BB cd.Address1 (cd.Address1 &&& 0x07) = .ok e1 →
      calculateAddress p cd.BB cd.Address2 (cd.Address1 &&& 0x07) = .ok e2 →
      p.memory.ReadWord (e1 : Int) = some w1 →
      p.memory.ReadWord (e2 : Int) = some w2 →
      w2.D.I = 0 →
      DivInt.Execute cd p = .fail { p with error := true } .divByZero) ∧
    (∀ (p : Processor) (cd : CommandData) (e1 e2 : Nat) (w1 w2 : Word) (m2 : Memory),
      calculateAddress p cd.BB cd.Address1 (cd.Address1 &&& 0x07) = .ok e1 →
      calculateAddress p cd.BB cd.Address2 (cd.Address1 &&& 0x07) = .ok e2 →
      p.memory.ReadWord (e1 : Int) = some w1 →
      p.memory.ReadWord (e2 : Int) = some w2 →
      w2.D.I ≠ 0 →
      p.memory.WriteWord (e1 : Int) { w1 with D.I := goDiv32 w1.D.I w2.D.I } = some m2 →
      ∃ p2, DivInt.Execute cd p = .ok p2 ∧ p2.memory = m2 ∧
        p2.psw.CarryFlag = false ∧ p2.psw.OverflowFlag = false ∧
        p2.psw.SignFlag = decide (goDiv32 w1.D.I w2.D.I < 0) ∧
        p2.psw.ZeroFlag = decide (goDiv32 w1.D.I w2.D.I = 0)) ∧
    (∀ (p : Processor) (cd : CommandData) (e1 e2 : Nat) (w1 w2 : Word),
      calculateAddress p cd.BB cd.Address1 (cd.Address1 &&& 0x07) = .ok e1 →
      calculateAddress p cd.BB cd.Address2 (cd.Address1 &&& 0x07) = .ok e2 →
      p.memory.ReadWord (e1 : Int) = some w1 →
      p.memory.ReadWord (e2 : Int) = some w2 →
      DivFloat.Execute cd p = .fail { p with error := true } .divByZero) := by
  refine ⟨?_, ?_, ?_⟩
  · intro p cd e1 e2 w1 w2 h1 h2 h3 h4 hz
    simp only [DivInt.Execute, h1, h2, h3, h4]
    rw [if_pos hz]
  · intro p cd e1 e2 w1 w2 m2 h1 h2 h3 h4 hnz h5
    refine ⟨Processor.UpdateArithmeticFlags { p with memory := m2 }
      (goDiv32 w1.D.I w2.D.I) false false, ?_, rfl, rfl, rfl, rfl, rfl⟩
    simp only [DivInt.Execute, h1, h2, h3, h4]
    rw [if_neg hnz, h5]
  · intro p cd e1 e2 w1 w2 h1 h2 h3 h4
    have hz : w2.D.F = 0 := readWord_F_zero _ _ _ h4
    simp only [DivFloat.Execute, h1, h2, h3, h4]
    rw [if_pos hz]

theorem processLine_refines (st : LoaderState) (line : String) (r : SpecCursor ⊕ Nat)
    (hspec : specDirStep st.memory.size (specCursorOf st) line = some r) :
    (∀ sc2, r = .inl sc2 →
      ∃ st2, processLine st line = .next st2 ∧ st2.memory.size = st.memory.size ∧
        specCursorOf st2 = sc2) ∧
    (∀ e, r = .inr e → processLine st line = .halt (.ok e st.memory)) := by
  unfold specDirStep at hspec
  unfold processLine
  cases hf : fieldsOf line with
  | nil =>
    rw [hf] at hspec
    try dsimp only at hspec
    try dsimp only
    simp only [Option.some.injEq] at hspec
    subst hspec
    exact ⟨fun sc2 hr => by cases hr; exact ⟨st, rfl, rfl, rfl⟩, fun e hr => by cases hr⟩
  | cons cmd args =>
    rw [hf] at hspec
    try dsimp only at hspec
    try dsimp only
    by_cases ha : toLowerStr cmd = "a"
    · rw [if_pos ha] at hspec ⊢
      cases args with
      | nil => exact absurd hspec (by simp)
      | cons tok rest =>
        try dsimp only at hspec
        try dsimp only
        cases hp : goParseInt 16 hexDigitVal 32 tok with
        | none => exact absurd hspec (by simp [hp])
        | some addr =>
          rw [hp] at hspec
          try dsimp only at hspec
          try dsimp only
          split_ifs at hspec with hb
          simp only [Option.some.injEq] at hspec
          subst hspec
          rw [if_neg (show ¬¬st.memory.IsValidAddress addr from not_not_intro hb)]
          constructor
          · intro sc2 hr
            cases hr
            exact ⟨_, rfl, rfl, rfl⟩
          · intro e hr
            cases hr
    · rw [if_neg ha] at hspec ⊢
      by_cases he : toLowerStr cmd = "e"
      · rw [if_pos he] at hspec ⊢
        cases args with
        | nil => exact absurd hspec (by simp)
        | cons tok rest =>
          try dsimp only at hspec
          try dsimp only
          cases hp : goParseInt 16 hexDigitVal 16 tok with
          | none => exact absurd hspec (by simp [hp])
          | some ip =>
            rw [hp] at hspec
            try dsimp only at hspec
            try dsimp only
            split_ifs at hspec with hb
            simp only [Option.some.injEq] at hspec
            subst hspec
            rw [if_neg (show ¬¬st.memory.IsValidAddress ip from not_not_intro hb)]
            constructor
            · intro sc2 hr
              cases hr
              refine ⟨_, rfl, rfl, ?_⟩
              simp [specCursorOf]
            · intro e hr
              cases hr
      · rw [if_neg he] at hspec ⊢
        by_cases hi : toLowerStr cmd = "i"
        · rw [if_pos hi] at hspec ⊢
          cases args with
          | nil => exact absurd hspec (by simp)
          | cons tok rest =>
            try dsimp only at hspec
            try dsimp only
            cases hp : goParseInt 10 decDigitVal 32 tok with
            | none => exact absurd hspec (by simp [hp])
            | some value =>
              rw [hp] at hspec
              try dsimp only at hspec
              try dsimp only
              split_ifs at hspec with hb
              simp only [Option.some.injEq] at hspec
              subst hspec
              rw [WriteWord_eq st.memory st.address _ ⟨hb.1, hb.2⟩]
              constructor
              · intro sc2 hr
                cases hr
                refine ⟨_, rfl, rfl, ?_⟩
                simp [specCursorOf]
              · intro e hr
                cases hr
        · rw [if_neg hi] at hspec ⊢
          by_cases hr2 : toLowerStr cmd = "r"
          · rw [if_pos hr2] at hspec ⊢
            cases args with
            | nil => exact absurd hspec (by simp)
            | cons tok rest =>
              try dsimp only at hspec
              try dsimp only
              cases hp : goParseFloatDec tok with
              | none => exact absurd hspec (by simp [hp])
              | some value =>
                rw [hp] at hspec
                try dsimp only at hspec
                try dsimp only
                split_ifs at hspec with hb
                simp only [Option.some.injEq] at hspec
                subst hspec
                rw [WriteWord_eq st.memory st.address _ ⟨hb.1, hb.2⟩]
                constructor
                · intro sc2 hr
                  cases hr
                  refine ⟨_, rfl, rfl, ?_⟩
                  simp [specCursorOf]
                · intro e hr
                  cases hr
          · rw [if_neg hr2] at hspec ⊢
            by_cases hk : toLowerStr cmd = "k"
            · rw [if_pos hk] at hspec ⊢
              match args with
              | [] => exact absurd hspec (by simp)
              | [t1] => exact absurd hspec (by simp)
              | [t1, t2] => exact absurd hspec (by simp)
              | [t1, t2, t3] => exact absurd hspec (by simp)
              | t1 :: t2 :: t3 :: t4 :: rest =>
                try dsimp only at hspec
                try dsimp only
                cases hp : goParseUint 16 hexDigitVal 8 t1 with
                | none => exact absurd hspec (by simp [hp])
                | some opcode =>
                  rw [hp] at hspec
                  cases hp2 : goParseUint 16 hexDigitVal 8 t2 with
                  | none => exact absurd hspec (by simp [hp2])
                  | some bb =>
                    rw [hp2] at hspec
                    cases hp3 : goParseUint 16 hexDigitVal 16 t3 with
                    | none => exact absurd hspec (by simp [hp3])
                    | some addr1 =>
                      rw [hp3] at hspec
                      cases hp4 : goParseUint 16 hexDigitVal 16 t4 with
                      | none => exact absurd hspec (by simp [hp4])
                      | some addr2 =>
                        rw [hp4] at hspec
                        try dsimp only at hspec
                        try dsimp only
                        split_ifs at hspec with hvo hvb hv1 hv2 hbnd
                        simp only [Option.some.injEq] at hspec
                        subst hspec
                        rw [if_neg (show ¬¬isValidOpcode opcode from not_not_intro hvo),
                          if_neg (show ¬¬isValidBB bb from not_not_intro hvb),
                          if_neg (show ¬¬loaderIsValidAddress addr1 st.memory from
                            not_not_intro hv1),
                          if_neg (show ¬¬loaderIsValidAddress addr2 st.memory from
                            not_not_intro hv2),
                          WriteWord_eq st.memory st.address _ ⟨hbnd.1, hbnd.2⟩]
                        constructor
                        · intro sc2 hr
                          cases hr
                          refine ⟨_, rfl, rfl, ?_⟩
                          simp [specCursorOf]
                        · intro e hr
                          cases hr
            · rw [if_neg hk] at hspec ⊢
              by_cases hs : toLowerStr cmd = "s"
              · rw [if_pos hs] at hspec ⊢
                cases hent : st.entryPointSet with
                | false =>
                  rw [show specCursorOf st = ⟨st.address, none⟩ from by
                    simp [specCursorOf, hent]] at hspec
                  exact absurd hspec (by simp)
                | true =>
                  rw [show specCursorOf st = ⟨st.address, some st.initialIP⟩ from by
                    simp [specCursorOf, hent]] at hspec
                  try dsimp only at hspec
                  simp only [Option.some.injEq] at hspec
                  subst hspec
                  rw [if_neg (show ¬¬(true = true) from by simp)]
                  constructor
                  · intro sc2 hr
                    cases hr
                  · intro e hr
                    cases hr
                    rfl
              · rw [if_neg hs] at hspec
                exact absurd hspec (by simp)

theorem readProgramLines_refines :
    ∀ (L : List String) (st : LoaderState) (v : Nat),
      specFileEntry st.memory.size (specCursorOf st) L = some v →
      ∃ mem, readProgramLines st L = .ok v mem := by
  intro L
  induction L with
  | nil => intro st v hs; exact absurd hs (by simp [specFileEntry])
  | cons line rest ih =>
    intro st v hs
    unfold specFileEntry at hs
    unfold readProgramLines
    try dsimp only
    cases hd : specDirStep st.memory.size (specCursorOf st) line with
    | none => rw [hd] at hs; exact absurd hs (by simp)
    | some r =>
      rw [hd] at hs
      have hd1 : specDirStep ({ st with lineNumber := st.lineNumber + 1 } : LoaderState).memory.size
          (specCursorOf { st with lineNumber := st.lineNumber + 1 }) line = some r := hd
      cases r with
      | inl sc2 =>
        dsimp only at hs
        obtain ⟨st2, hpl, hsz, hcur⟩ :=
          (processLine_refines { st with lineNumber := st.lineNumber + 1 } line _ hd1).1 sc2 rfl
        rw [hpl]
        exact ih st2 v (by rw [hsz, hcur]; exact hs)
      | inr e =>
        dsimp only at hs
        simp only [Option.some.injEq] at hs
        subst hs
        have hpl := (processLine_refines { st with lineNumber := st.lineNumber + 1 } line _ hd1).2 e rfl
        rw [hpl]
        exact ⟨_, rfl⟩

/-- C9 (amended): for every line list validated by the spec-side checker
`specFileEntry` (only valid directives, in-bounds data/instruction writes,
`r` values within float32 range — `strconv.ParseFloat(_, 32)` reports
`ErrRange` past `float32OverflowBound` — and an `e` directive whose value
parses within the signed 16-bit range — entry points in `[0, 0x8000)` —
before the terminating `s`), `readProgramFromFile` succeeds and returns
exactly the checker's entry point. -/
theorem loader_totality_spec_valid (lines : List String) (v : Nat)
    (hs : specFileEntry 65536 ⟨0, none⟩ lines = some v) :
    ∃ mem, readProgramFromFile lines = .ok v mem :=
  readProgramLines_refines lines ⟨NewMemory 65536, 0, 0, false, 0⟩ v hs

/-- C1: the specification scenario expects a taken `JZ` (flags zero,
`BB = 00`, `Address1 = 5`) to leave `IP` at the jump target 5.  The
`JumpZero` handler does set `IP := 5` (third conjunct), but
`executeNextInstruction` then unconditionally overwrites `IP` with
`(saved IP) + 1` for every non-STOP opcode, so the step ends with
`IP = 1` and the jump has no effect: the code contradicts its own jump
handler, a slip in the IP-update of the step function. -/
theorem jz_taken_jump_clobbered_by_ip_increment :
    pJZ.GetFlags = 0 ∧
    memJZ.ReadWord 0 = some ⟨⟨0, 0⟩, ⟨JZ, 0, 5, 0⟩⟩ ∧
    (JumpZero.Execute ⟨JZ, 0, 5, 0⟩ pJZ).ipOf = some 5 ∧
    (executeNextInstruction console0 pJZ).ipOf = some 1 ∧
    (executeNextInstruction console0 pJZ).isOk = true := by decide

/-- C2 counterexample: fetching at address 0 of a zeroed memory — a data
word (high byte 0) — does **not** fail with `InvalidOpcode`: the step
succeeds, sets `stop`, and leaves the error flag clear, i.e. the engine
halts normally exactly as if a STOP instruction had been executed. -/
theorem data_word_fetch_halts_normally_cex :
    (executeNextInstruction console0 pZ).stopOf = some true ∧
    (executeNextInstruction console0 pZ).errorOf = some false ∧
    (executeNextInstruction console0 pZ).isOk = true ∧
    memZ.ReadWord 0 = some ⟨⟨0, 0⟩, ⟨0, 0, 0, 0⟩⟩ := by decide

/-- C2 (amended): a fetch at an address holding a data word decodes opcode
byte 0, which is registered in the dispatch map as STOP, so the engine
halts normally: the step returns success with only the stop flag set.
`InvalidOpcode` arises only for opcodes absent from the dispatch map. -/
theorem data_word_fetch_executes_as_stop_witness :
    executeNextInstruction console0 pZ = .ok { pZ with stop := true } :=
  data_word_fetch_executes_as_stop console0 pZ (by decide) (by decide)

/-- C3 counterexample: with only the sign flag set the packed flag word is
`0x8000`, which is negative as a signed 16-bit value, so the claim says JG
must not jump and JL must jump.  The code does the opposite: JG (an
unsigned `> 0` test) jumps to 7, JL (an unsigned `< 0` test, never true)
leaves `IP` at 0. -/
theorem jump_direction_sign_flag_cex :
    signed16 pS.GetFlags < 0 ∧
    (JumpGreater.Execute ⟨JG, 0, 7, 0⟩ pS).ipOf = some 7 ∧
    (JumpLess.Execute ⟨JL, 0, 7, 0⟩ pS).ipOf = some 0 ∧
    pS.psw.IP = 0 := by decide

/-- C3 (amended) witness at the sign-flag-only state: JL is a no-op and JG
jumps because the flag word is nonzero. -/
theorem jump_greater_unsigned_jump_less_never_witness :
    JumpLess.Execute ⟨JL, 0, 7, 0⟩ pS = .ok pS ∧
    (∃ target, calculateAddress pS 0 7 0 = .ok target ∧
      JumpGreater.Execute ⟨JG, 0, 7, 0⟩ pS = .ok { pS with psw.IP := target }) :=
  ⟨(jump_greater_unsigned_jump_less_never pS ⟨JL, 0, 7, 0⟩).1,
   (jump_greater_unsigned_jump_less_never pS ⟨JG, 0, 7, 0⟩).2.2 (by decide)⟩

/-- C4: `WriteWord`/`ReadWord` perform no bounds validation.  A word write
at `size-4 = 65532` succeeds and a word access at `size-3 = 65533` is the
Go slice-bounds panic (`none` in the model) — not an `OutOfBounds` error
value: the functions' declared error results are always nil, contradicting
their own bounds-checking doc comments and the specification. -/
theorem write_read_word_unchecked_bounds :
    (memZ.WriteWord 65532 wD5).isSome = true ∧
    memZ.WriteWord 65533 wD5 = none ∧
    memZ.ReadWord 65533 = none ∧
    (memZ.ReadWord 65532).isSome = true :=
  ⟨by decide, rfl, rfl, by decide⟩

/-- C5 counterexample: `ISUB` on operands 5 and 3 sets the carry flag,
although the claim's borrow formula `uint32(a) < uint32(b)` is false for
`a = 5, b = 3` — because the code overwrites the destination with the
result 2 before evaluating the borrow test, which becomes `u32 2 < u32 3`. -/
theorem isub_borrow_from_result_cex :
    (SubInt.Execute ⟨ISUB, 0, 16, 20⟩ pSub).carryOf = some true ∧
    ¬(u32 5 < u32 3) ∧
    memSub.ReadWord 16 = some ⟨⟨5, 0⟩, ⟨0, 0, 0, 0⟩⟩ ∧
    memSub.ReadWord 20 = some ⟨⟨3, 0⟩, ⟨0, 0, 0, 0⟩⟩ := by decide

/-- C5 (amended) witness: concrete instances of all four conjuncts — IADD
and ISUB on memory cells 16 (value 5) and 20 (value 3), and ADDR/SUBR on
the zero registers. -/
theorem arithmetic_flags_after_add_sub_witness :
    (∃ p2, AddInt.Execute ⟨IADD, 0, 16, 20⟩ pSub = .ok p2 ∧
      p2.psw.OverflowFlag = false ∧
      p2.psw.CarryFlag =
        decide ((u32 (wrap32 ((5 : Int) + 3)) + u32 (3 : Int)) % 2 ^ 32 > 0x7FFFFFFF) ∧
      p2.psw.SignFlag = decide (wrap32 ((5 : Int) + 3) < 0) ∧
      p2.psw.ZeroFlag = decide (wrap32 ((5 : Int) + 3) = 0) ∧
      p2.memory = patchBytes memSub 16 (Word.rawValue ⟨⟨wrap32 ((5 : Int) + 3), 0⟩, ⟨0, 0, 0, 0⟩⟩) ∧
      p2.psw.IP = pSub.psw.IP) ∧
    (∃ p2, SubInt.Execute ⟨ISUB, 0, 16, 20⟩ pSub = .ok p2 ∧
      p2.psw.OverflowFlag = false ∧
      p2.psw.CarryFlag = decide (u32 (wrap32 ((5 : Int) - 3)) < u32 (3 : Int)) ∧
      p2.psw.SignFlag = decide (wrap32 ((5 : Int) - 3) < 0) ∧
      p2.psw.ZeroFlag = decide (wrap32 ((5 : Int) - 3) = 0) ∧
      p2.memory = patchBytes memSub 16 (Word.rawValue ⟨⟨wrap32 ((5 : Int) - 3), 0⟩, ⟨0, 0, 0, 0⟩⟩) ∧
      p2.psw.IP = pSub.psw.IP) ∧
    (∃ p2, AddRegisters.Execute ⟨ADDR, 0, 0, 1⟩ pZ = .ok p2 ∧
      p2.psw.OverflowFlag = decide (((0 : Int) > 0 ∧ (0 : Int) > 0 ∧ wrap32 ((0 : Int) + 0) < 0) ∨
        ((0 : Int) < 0 ∧ (0 : Int) < 0 ∧ wrap32 ((0 : Int) + 0) > 0)) ∧
      p2.psw.CarryFlag = decide ((u32 0 + u32 0) % 2 ^ 32 > 0x7FFFFFFF) ∧
      p2.psw.SignFlag = decide (wrap32 ((0 : Int) + 0) < 0) ∧
      p2.psw.ZeroFlag = decide (wrap32 ((0 : Int) + 0) = 0)) ∧
    (∃ p2, SubtractRegisters.Execute ⟨SUBR, 0, 0, 1⟩ pZ = .ok p2 ∧
      p2.psw.OverflowFlag = decide (((0 : Int) > 0 ∧ (0 : Int) < 0 ∧ wrap32 ((0 : Int) - 0) < 0) ∨
        ((0 : Int) < 0 ∧ (0 : Int) > 0 ∧ wrap32 ((0 : Int) - 0) > 0)) ∧
      p2.psw.CarryFlag = decide (u32 0 < u32 0) ∧
      p2.psw.SignFlag = decide (wrap32 ((0 : Int) - 0) < 0) ∧
      p2.psw.ZeroFlag = decide (wrap32 ((0 : Int) - 0) = 0)) :=
  ⟨arithmetic_flags_after_add_sub.1 pSub ⟨IADD, 0, 16, 20⟩ 16 20
      ⟨⟨5, 0⟩, ⟨0, 0, 0, 0⟩⟩ ⟨⟨3, 0⟩, ⟨0, 0, 0, 0⟩⟩ _ rfl rfl rfl rfl
      (WriteWord_eq memSub 16 _ (by decide)),
   arithmetic_flags_after_add_sub.2.1 pSub ⟨ISUB, 0, 16, 20⟩ 16 20
      ⟨⟨5, 0⟩, ⟨0, 0, 0, 0⟩⟩ ⟨⟨3, 0⟩, ⟨0, 0, 0, 0⟩⟩ _ rfl rfl rfl rfl
      (WriteWord_eq memSub 16 _ (by decide)),
   arithmetic_flags_after_add_sub.2.2.1 pZ ⟨ADDR, 0, 0, 1⟩ 0 0 _ rfl rfl rfl,
   arithmetic_flags_after_add_sub.2.2.2 pZ ⟨SUBR, 0, 0, 1⟩ 0 0 _ rfl rfl rfl⟩

/-- C6 counterexample: with `Address2 = 0x400` (within its declared uint16
type but beyond the 10-bit field), the packed word bleeds into the
`Address1` field: writing opcode 1, BB 0, Address1 0, Address2 0x400 and
reading back yields `Address1 = 1` although the written `Address1 & 0xFFF`
is 0. -/
theorem command_roundtrip_field_bleed_cex :
    ((memZ.WriteWord 0 wC6).bind fun m => m.ReadWord 0) = some ⟨⟨0, 0⟩, ⟨1, 0, 1, 0⟩⟩ ∧
    wC6.Cmd.Address1 &&& 0xFFF = 0 ∧ (1 : Nat) ≠ 0 := by decide

/-- C6 (amended) witness: the in-range command word `wK` round-trips
exactly. -/
theorem command_roundtrip_in_range_witness :
    ∃ m2, memZ.WriteWord 0 wK = some m2 ∧
      m2.ReadWord 0 = some ⟨⟨0, 0⟩, ⟨0x41, 2, 0xABC, 0x155⟩⟩ :=
  command_roundtrip_in_range memZ 0 wK (by decide) (by decide) (by decide) (by decide)
    (by decide) (by decide) (by decide)

/-- C7 witness: the negative value `-5` (top byte `0xFF`) reads back as a
command, and `7` (top byte 0) reads back as the same integer. -/
theorem data_roundtrip_top_byte_witness :
    (∃ m2, memZ.WriteWord 8 ⟨⟨-5, 0⟩, ⟨0, 0, 0, 0⟩⟩ = some m2 ∧
      ∃ w, m2.ReadWord 8 = some w ∧
        (w.D.I = -5 ↔ u32 (-5) / 2 ^ 24 = 0) ∧
        (u32 (-5) / 2 ^ 24 ≠ 0 → w.Cmd.Opcode ≠ 0) ∧
        ((-5 : Int) < 0 → u32 (-5) / 2 ^ 24 ≠ 0)) ∧
    (∃ m2, memZ.WriteWord 12 ⟨⟨7, 0⟩, ⟨0, 0, 0, 0⟩⟩ = some m2 ∧
      ∃ w, m2.ReadWord 12 = some w ∧
        (w.D.I = 7 ↔ u32 7 / 2 ^ 24 = 0) ∧
        (u32 7 / 2 ^ 24 ≠ 0 → w.Cmd.Opcode ≠ 0) ∧
        ((7 : Int) < 0 → u32 7 / 2 ^ 24 ≠ 0)) :=
  ⟨data_roundtrip_top_byte memZ 8 (-5) (by decide) (by decide) (by decide) (by decide),
   data_roundtrip_top_byte memZ 12 7 (by decide) (by decide) (by decide) (by decide)⟩

/-- C8 counterexample: `IDIV` with nonzero divisor 3 and a destination
cell holding the command word `0x41000000` succeeds, but the destination
does not receive the truncating quotient (`goDiv32 0 3 = 0`, since a
command cell's integer view reads as 0): the cell still decodes to the
original command word, which differs from the data word holding the
quotient. -/
theorem idiv_command_destination_cex :
    (DivInt.Execute ⟨IDIV, 0, 0, 4⟩ pDiv).isOk = true ∧
    (DivInt.Execute ⟨IDIV, 0, 0, 4⟩ pDiv).readAt 0 = some ⟨⟨0, 0⟩, ⟨0x41, 0, 0, 0⟩⟩ ∧
    goDiv32 0 3 = 0 ∧
    (⟨⟨0, 0⟩, ⟨0x41, 0, 0, 0⟩⟩ : Word) ≠ ⟨⟨goDiv32 0 3, 0⟩, ⟨0, 0, 0, 0⟩⟩ := by decide

/-- C8 (amended) witness: zero-divisor `IDIV` and (always-zero-divisor)
`RDIV` on zeroed memory fail with the division-by-zero error and leave
memory untouched, and a nonzero-divisor `IDIV` on data cells 8 (value 6)
and 12 (value 3) stores the quotient. -/
theorem divide_by_zero_guards_witness :
    DivInt.Execute ⟨IDIV, 0, 0, 4⟩ pZ = .fail { pZ with error := true } .divByZero ∧
    DivFloat.Execute ⟨RDIV, 0, 0, 4⟩ pZ = .fail { pZ with error := true } .divByZero ∧
    (∃ p2, DivInt.Execute ⟨IDIV, 0, 8, 12⟩ pDiv2 = .ok p2 ∧
      p2.memory = patchBytes memDiv2 8 (Word.rawValue ⟨⟨goDiv32 6 3, 0⟩, ⟨0, 0, 0, 0⟩⟩) ∧
      p2.psw.CarryFlag = false ∧ p2.psw.OverflowFlag = false ∧
      p2.psw.SignFlag = decide (goDiv32 (6 : Int) 3 < 0) ∧
      p2.psw.ZeroFlag = decide (goDiv32 (6 : Int) 3 = 0)) :=
  ⟨divide_by_zero_guards.1 pZ ⟨IDIV, 0, 0, 4⟩ 0 4 ⟨⟨0, 0⟩, ⟨0, 0, 0, 0⟩⟩
      ⟨⟨0, 0⟩, ⟨0, 0, 0, 0⟩⟩ rfl rfl rfl rfl rfl,
   divide_by_zero_guards.2.2 pZ ⟨RDIV, 0, 0, 4⟩ 0 4 ⟨⟨0, 0⟩, ⟨0, 0, 0, 0⟩⟩
      ⟨⟨0, 0⟩, ⟨0, 0, 0, 0⟩⟩ rfl rfl rfl rfl,
   divide_by_zero_guards.2.1 pDiv2 ⟨IDIV, 0, 8, 12⟩ 8 12 ⟨⟨6, 0⟩, ⟨0, 0, 0, 0⟩⟩
      ⟨⟨3, 0⟩, ⟨0, 0, 0, 0⟩⟩ _ rfl rfl rfl rfl (by decide)
      (WriteWord_eq memDiv2 8 _ (by decide))⟩

/-- C9 counterexample: `0x8000` is a valid memory address, yet the file
`e 8000 / s` fails to load — the `e` directive is parsed with
`strconv.ParseInt(_, 16, 16)`, whose signed 16-bit range caps entry points
at `0x7FFF`. -/
theorem loader_entry_8000_cex :
    (readProgramFromFile ["e 8000", "s"]).isFail = true ∧
    (NewMemory 65536).IsValidAddress 0x8000 ∧
    (readProgramFromFile ["e 8000", "s"]).entryOf = none := by decide

/-- C9 (amended) witness: the two-line program with entry point `0x7fff`
(the largest loadable entry) is spec-valid and the loader returns it;
and a file whose `r` value overflows float32 (`1e39`, Go's `ErrRange`)
is rejected by the spec-side checker and fails in the loader alike. -/
theorem loader_totality_spec_valid_witness :
    (∃ mem, readProgramFromFile ["e 7fff", "s"] = .ok 0x7fff mem) ∧
    specFileEntry 65536 ⟨0, none⟩ ["e 0", "r 1e39", "s"] = none ∧
    (readProgramFromFile ["e 0", "r 1e39", "s"]).isFail = true :=
  ⟨loader_totality_spec_valid ["e 7fff", "s"] 0x7fff (by decide), by decide, by decide⟩

/-- C10 witness: on a one-byte memory the uint16 address 5 is invalid;
`Reset 5` only sets the error flag, and `Run` immediately returns the
state unchanged. -/
theorem reset_invalid_ip_frame_witness :
    pTiny.Reset 5 = { pTiny with error := true } ∧
    Run console0 7 (pTiny.Reset 5) = some (pTiny.Reset 5) := by
  have h := reset_invalid_ip_frame pTiny 5 (by decide)
  exact ⟨h.1, h.2 console0 7⟩

end VM
